import Mathlib

/-
  Verification development for the `generator` tool: a shallow embedding of
  the identifier resolver (`lookup`), the request synthesis pipeline
  (`generate`), the response classifier (`validate`) and the output
  formatters (`printJSON`, `printADO`), together with theorems settling the
  specification claims.

  Conventions of the embedding:
  * Go machine behaviour that aborts the process is made explicit in an
    error type `Err`: a Go slice-index panic is `Err.panicIndex`, a call to
    the program's `fatal` helper (which exits the process) is `Err.fatal`,
    and an error value returned by a function is `Err.genErr`.
  * The Go `regexp` package is external; the embedding is parametrised by a
    compile function `String → Option (String → Bool)`: `none` models a
    pattern `regexp.Compile` rejects, `some m` a compiled matcher.
  * The crypto random source is external; it is modelled by a function
    `randIdx : Nat → Nat` supplying the drawn index (reduced modulo the
    bound, as the Go call guarantees an in-range result).
-/

namespace Generator

/-- Process-level failure modes of the Go program. -/
inductive Err where
  | panicIndex
  | fatal (msg : String)
  | genErr (msg : String)
deriving DecidableEq, Repr

instance {ε α : Type} [DecidableEq ε] [DecidableEq α] : DecidableEq (Except ε α) :=
  fun x y =>
    match x, y with
    | .error a, .error b =>
      if h : a = b then isTrue (by rw [h]) else isFalse (fun hh => h (Except.error.inj hh))
    | .error _, .ok _ => isFalse (fun hh => Except.noConfusion hh)
    | .ok _, .error _ => isFalse (fun hh => Except.noConfusion hh)
    | .ok a, .ok b =>
      if h : a = b then isTrue (by rw [h]) else isFalse (fun hh => h (Except.ok.inj hh))

/-- Go slice access `xs[0]`: panics (runtime error: index out of range)
on an empty slice. -/
def index0 {α : Type} : List α → Except Err α
  | [] => .error .panicIndex
  | a :: _ => .ok a

/-- Go map assignment `m[k] = v`: overwrite an existing key, otherwise add. -/
def upsert {α : Type} (m : List (String × α)) (k : String) (v : α) :
    List (String × α) :=
  if m.any (fun kv => kv.1 == k) then
    m.map (fun kv => if kv.1 == k then (kv.1, v) else kv)
  else
    m ++ [(k, v)]

/-- Go map read `m[k]` (presence-aware). -/
def lookupVal {α : Type} (m : List (String × α)) (k : String) : Option α :=
  match m.find? (fun kv => kv.1 == k) with
  | some kv => some kv.2
  | none => none

/-- Go counter-map increment `m[k]++` (a missing key counts from zero). -/
def bump (m : List (String × Nat)) (k : String) : List (String × Nat) :=
  if m.any (fun kv => kv.1 == k) then
    m.map (fun kv => if kv.1 == k then (kv.1, kv.2 + 1) else kv)
  else
    m ++ [(k, 1)]

/-- Character-list version of string prefix testing. -/
def isPre : List Char → List Char → Bool
  | [], _ => true
  | _ :: _, [] => false
  | a :: as, b :: bs => a == b && isPre as bs

/-- Fuel-driven core of `strings.ReplaceAll`: replaces non-overlapping
occurrences of `pat` left to right. The fuel is the length of the subject,
which suffices since every step consumes at least one character. (`pat` is
never empty at the call sites: it is always a brace-wrapped name.) -/
def replaceFuel (pat rep : List Char) : Nat → List Char → List Char
  | 0, s => s
  | _ + 1, [] => []
  | fuel + 1, c :: rest =>
    if isPre pat (c :: rest) then
      rep ++ replaceFuel pat rep fuel (List.drop (pat.length - 1) rest)
    else
      c :: replaceFuel pat rep fuel rest

/-- Go `strings.ReplaceAll s pat rep`. -/
def replaceAllStr (s pat rep : String) : String :=
  ⟨replaceFuel pat.data rep.data s.data.length s.data⟩

/-- Go `strings.TrimPrefix s p`. -/
def trimPre (s p : String) : String :=
  if isPre p.data s.data then ⟨s.data.drop p.data.length⟩ else s

/-- Accumulate the decimal value of a digit list. -/
def digitsToNat (ds : List Char) : Nat :=
  ds.foldl (fun n c => 10 * n + (c.toNat - 48)) 0

/-- Go `strings.ToLower` (character-wise). -/
def toLowerStr (s : String) : String := ⟨s.data.map Char.toLower⟩

/-- Go `strings.ToUpper` (character-wise). -/
def toUpperStr (s : String) : String := ⟨s.data.map Char.toUpper⟩

/-- Go `strconv.Atoi`: optional sign followed by at least one digit
(machine-word overflow is not modelled; the declared status codes in play
are small). -/
def atoi (s : String) : Option Int :=
  match s.data with
  | [] => none
  | '-' :: ds =>
    if ds.isEmpty then none
    else if ds.all Char.isDigit then some (-(digitsToNat ds : Int)) else none
  | '+' :: ds =>
    if ds.isEmpty then none
    else if ds.all Char.isDigit then some (digitsToNat ds : Int) else none
  | ds =>
    if ds.all Char.isDigit then some (digitsToNat ds : Int) else none

/-! ## The rule database (external `cfg` collaborator)

The flat-file rule database is parsed by the external `cfg` package, out of
scope for the core. Its record/tuple/attribute shape is modelled from the
specification of the RuleStore collaborator: a Record is one declaration
block whose first tuple is the `name=value` line; a clause tuple is named by
its leading keyword attribute (`disallow`, `permit`, `values`,
`properties`); `Cfg.Lookup` returns the records for an identifier in file
order, `Record.Lookup` the tuples of a clause in file order, and the
three-level map gives record → tuple → attribute access. -/

/-- One `name="value"` pair (or bare keyword, with empty value) on a rule
line. -/
structure Attribute where
  name : String
  value : String
deriving DecidableEq, Repr

/-- One rule line: an ordered attribute list, led by its keyword. -/
structure Tuple where
  attributes : List Attribute
deriving DecidableEq, Repr

/-- The keyword naming a tuple: its first attribute's name. -/
def Tuple.keyword (t : Tuple) : String :=
  match t.attributes with
  | [] => ""
  | a :: _ => a.name

/-- Membership in `tuple.Map` (presence of an attribute with the given
name anywhere in the tuple). -/
def Tuple.hasKey (t : Tuple) (k : String) : Bool :=
  t.attributes.any (fun a => a.name == k)

/-- One declaration block for an identifier. -/
structure Record where
  tuples : List Tuple
deriving DecidableEq, Repr

/-- The identifier a record declares: the keyword of its first tuple. -/
def Record.rname (r : Record) : String :=
  match r.tuples with
  | [] => ""
  | t :: _ => t.keyword

/-- `record.Lookup(clause)`: the tuples of a clause in declared order, with
an ok flag (`none` when the clause is absent). -/
def Record.lookupClause (r : Record) (k : String) : Option (List Tuple) :=
  let ts := r.tuples.filter (fun t => t.keyword == k)
  if ts.isEmpty then none else some ts

/-- The whole rule database. -/
structure Cfg where
  records : List Record
deriving DecidableEq, Repr

/-- `c.Lookup(name)`: all records for an identifier, in file order, with an
ok flag. -/
def Cfg.lookupRecords (c : Cfg) (k : String) : Option (List Record) :=
  let rs := c.records.filter (fun r => r.rname == k)
  if rs.isEmpty then none else some rs

/-- `c.Map[rname][tname]`: the attributes of all tuples named `tname` in
records named `rname`; `none` when no such tuple exists. -/
def Cfg.mapTuple (c : Cfg) (rname tname : String) : Option (List Attribute) :=
  let rs := c.records.filter (fun r => r.rname == rname)
  if rs.any (fun r => r.tuples.any (fun t => t.keyword == tname)) then
    some ((rs.map (fun r =>
      ((r.tuples.filter (fun t => t.keyword == tname)).map Tuple.attributes).flatten)).flatten)
  else
    none

/-- Attribute read from a tuple-attribute map: all values stored under a
name, with a presence flag. -/
def attrGet (attrs : List Attribute) (k : String) : Option (List String) :=
  if attrs.any (fun a => a.name == k) then
    some ((attrs.filter (fun a => a.name == k)).map Attribute.value)
  else
    none

/-! ## The identifier resolver (`lookup`) -/

/-- Result indicates the type of result of a lookup. -/
inductive Result where
  | something
  | nothing
  | fuzzing
deriving DecidableEq, Repr

/-- The per-attribute comparison `valid` of the resolver: literal equality,
or — when the tuple is in regex mode — compilation of the stored value as a
pattern, where a compile failure is fatal (`fatal` exits the process). -/
def validOf (compile : String → Option (String → Bool)) (useRegex : Bool)
    (value other : String) : Except Err Bool :=
  if useRegex then
    match compile value with
    | none => .error (.fatal ("err: could not compile regex \"" ++ value ++ "\" →"))
    | some m => .ok (m other)
  else
    .ok (value == other)

/-- The context field an attribute name selects: `title` and `path` are
recognised, anything else is skipped. -/
def testOf (path title : String) (a : Attribute) : Option String :=
  if a.name == "title" then some title
  else if a.name == "path" then some path
  else none

/-- The `searchAttributes` loop: scan the attributes left to right with the
running `result` flag (initially false); unrecognised names are skipped, a
succeeding comparison sets the flag, a failing comparison aborts the tuple
with `false`. -/
def searchAttrs (valid : String → String → Except Err Bool)
    (path title : String) : List Attribute → Bool → Except Err Bool
  | [], result => .ok result
  | attr :: rest, result =>
    match testOf path title attr with
    | none => searchAttrs valid path title rest result
    | some test => do
      let v ← valid attr.value test
      if v then searchAttrs valid path title rest true
      else .ok false

/-- The attribute list of a tuple after stripping the leading clause
keyword (stripped only when more than one attribute is present). -/
def strippedAttrs (t : Tuple) : List Attribute :=
  if t.attributes.length > 1 then t.attributes.drop 1 else t.attributes

/-- Whether regex comparison is used for a tuple: more than one attribute
remains after the keyword strip and the tuple carries a `regex` key. -/
def regexEngaged (t : Tuple) : Bool :=
  (strippedAttrs t).length > 1 && t.hasKey "regex"

/-- The attributes actually scanned for a tuple: one more leading attribute
is stripped when regex mode is engaged. -/
def scannedAttrs (t : Tuple) : List Attribute :=
  if regexEngaged t then (strippedAttrs t).drop 1 else strippedAttrs t

/-- Match of a single tuple against the context: strip the leading clause
keyword when more than one attribute is present; engage regex mode (and
strip one more attribute) when more than one attribute remains and the
tuple carries a `regex` key; then scan the remaining attributes. -/
def matchTuple (compile : String → Option (String → Bool))
    (path title : String) (t : Tuple) : Except Err Bool :=
  searchAttrs (validOf compile (regexEngaged t)) path title (scannedAttrs t) false

/-- The `match` closure of the resolver: a tuple set matches if any of its
tuples matches; it does not match by default. -/
def matchTuples (compile : String → Option (String → Bool))
    (path title : String) : List Tuple → Except Err Bool
  | [] => .ok false
  | t :: rest => do
    let b ← matchTuple compile path title t
    if b then .ok true else matchTuples compile path title rest

/-- Accumulator of the record-evaluation loop: the sticky fuzz flag and the
value list collected so far. -/
structure LookupState where
  fuzz : Bool
  out : List String
deriving DecidableEq, Repr

/-- The flattened literal tokens of a record's `values` clause: for each
tuple with more than one attribute, the names of all attributes after the
keyword, in declared order. -/
def enumVals (record : Record) : List String :=
  match record.lookupClause "values" with
  | some values =>
    (values.map (fun t =>
      if t.attributes.length > 1 then
        (t.attributes.drop 1).map Attribute.name
      else [])).flatten
  | none => []

/-- The effect-free tail of one `recordSearch` iteration, run once the
record passed its disallow/permit gates: adopt the sticky fuzz property,
then contribute enumerated values (one random pick under fuzz, else all in
order) or, failing those and fuzz, the primary value. -/
def lookupContribute (randIdx : Nat → Nat) (primaryValue : List String)
    (properties : Option (List Attribute)) (st : LookupState)
    (record : Record) : LookupState :=
  let fuzz := st.fuzz ||
    (match properties with
     | some attrs => attrs.any (fun a => a.name == "fuzz")
     | none => false)
  let vals := enumVals record
  if vals.length > 0 then
    if fuzz then
      ⟨fuzz, st.out ++ [vals.getD (randIdx vals.length % vals.length) ""]⟩
    else
      ⟨fuzz, st.out ++ vals⟩
  else if !fuzz && primaryValue.length > 0 then
    ⟨fuzz, st.out ++ primaryValue⟩
  else
    ⟨fuzz, st.out⟩

/-- The disallow gate of one `recordSearch` iteration: whether any tuple of
the record's `disallow` clause matches the context (an absent clause never
matches). -/
def disallowGate (compile : String → Option (String → Bool))
    (path title : String) (record : Record) : Except Err Bool :=
  match record.lookupClause "disallow" with
  | some exceptions => matchTuples compile path title exceptions
  | none => .ok false

/-- The permit gate of one `recordSearch` iteration: whether the record has
a `permit` clause none of whose tuples matches the context (which takes the
record out of scope). -/
def permitGate (compile : String → Option (String → Bool))
    (path title : String) (record : Record) : Except Err Bool :=
  match record.lookupClause "permit" with
  | some constraints =>
    match matchTuples compile path title constraints with
    | .error e => .error e
    | .ok m => .ok (!m)
  | none => .ok false

/-- One iteration of the `recordSearch` loop of `lookup`: a record whose
`disallow` clause matches is skipped; a record with a `permit` clause none
of whose tuples match is skipped; otherwise the record contributes. -/
def lookupStep (compile : String → Option (String → Bool))
    (randIdx : Nat → Nat) (path title : String)
    (primaryValue : List String) (properties : Option (List Attribute))
    (st : LookupState) (record : Record) : Except Err LookupState :=
  match disallowGate compile path title record with
  | .error e => .error e
  | .ok true =>
    -- We are an exception
    .ok st
  | .ok false =>
    match permitGate compile path title record with
    | .error e => .error e
    | .ok true =>
      -- We are not in scope
      .ok st
    | .ok false => .ok (lookupContribute randIdx primaryValue properties st record)

/-- Fold of `lookupStep` over the records, in file order. -/
def lookupFold (compile : String → Option (String → Bool))
    (randIdx : Nat → Nat) (path title : String)
    (primaryValue : List String) (properties : Option (List Attribute)) :
    List Record → LookupState → Except Err LookupState
  | [], st => .ok st
  | r :: rest, st =>
    match lookupStep compile randIdx path title primaryValue properties st r with
    | .error e => .error e
    | .ok st' => lookupFold compile randIdx path title primaryValue properties rest st'

/-- Presence of a clause for an identifier anywhere in the store
(`c.Map[name][k]` exists). -/
def hasClause (c : Cfg) (name k : String) : Bool :=
  (c.mapTuple name k).isSome

/-- The rule-evaluation part of `lookup`, after the primary value has been
read: the short-circuit checks, then the record fold and the final outcome
classification. -/
def lookupBody (compile : String → Option (String → Bool)) (randIdx : Nat → Nat)
    (c : Cfg) (name path title : String) (primaryValue : List String) :
    Except Err (List String × Result) :=
  if !(decide (primaryValue.length > 0)) && !(hasClause c name "values") then
    -- Value omitted for this identifier
    .ok ([], .nothing)
  else if !(hasClause c name "disallow") && !(hasClause c name "permit") &&
      !(hasClause c name "values") && decide (primaryValue.length > 0) then
    -- Just the value
    .ok (primaryValue, .something)
  else
    match c.lookupRecords name with
    | none => .ok ([], .nothing)
    | some records =>
      match lookupFold compile randIdx path title primaryValue
          (c.mapTuple name "properties") records ⟨false, []⟩ with
      | .error e => .error e
      | .ok st =>
        .ok (st.out,
          if st.fuzz then Result.fuzzing
          else if st.out.length > 0 then Result.something
          else Result.nothing)

/-- Lookup an identifier name for a given path in a given API: the
identifier resolver, translated from `lookup` in the source. -/
def lookup (compile : String → Option (String → Bool)) (randIdx : Nat → Nat)
    (c : Cfg) (name path title : String) :
    Except Err (List String × Result) :=
  match c.mapTuple name name with
  | none => .ok ([], .nothing)
  | some primaryAttributes =>
    lookupBody compile randIdx c name path title
      ((attrGet primaryAttributes name).getD [])

/-! ## The OpenAPI specification tree (external `openapi` collaborator)

Only the fields the core reads are carried; ordered association lists stand
for the parsed JSON objects, the list order being whatever iteration order
the external representation yields. -/

/-- A required/optional parameter with its placement (`In`). -/
structure Parameter where
  name : String
  location : String
  required : Bool
deriving DecidableEq, Repr

/-- A schema property: semantic type, optional format, optional enumerated
literals, and the `Items` schema reference used by the body-schema search. -/
structure Property where
  type : String
  format : String
  enums : List String
  itemsRef : String
deriving DecidableEq, Repr

/-- A named component schema: its property map. -/
structure SchemaType where
  properties : List (String × Property)
deriving DecidableEq, Repr

/-- The request body declaration of an operation: requiredness and the
`Content["application/json"]["schema"].Ref` reference. -/
structure RequestBody where
  required : Bool
  schemaRef : String
deriving DecidableEq, Repr

/-- One operation (`openapi.Method`). -/
structure Method where
  summary : String
  parameters : List Parameter
  requestBody : RequestBody
  responses : List String
deriving DecidableEq, Repr

/-- A target server. -/
structure Server where
  url : String
deriving DecidableEq, Repr

/-- The API info block (only the title is consulted). -/
structure Info where
  title : String
deriving DecidableEq, Repr

/-- The parsed OpenAPI document: servers, info, path → method → operation,
and the `Components["schemas"]` table. -/
structure API where
  servers : List Server
  info : Info
  paths : List (String × List (String × Method))
  schemas : List (String × SchemaType)
deriving DecidableEq, Repr

/-- Generate a more random property body: the synthetic default filled in
for a body property whose resolution came back `nothing` or `fuzzing`
(translated from `randProperty`). -/
def randProperty (randIdx : Nat → Nat) (obj : List (String × String))
    (name : String) (property : Property) : List (String × String) :=
  match property.type with
  | "string" =>
    let obj :=
      match property.format with
      | "date-time" => upsert obj name "00-00-0000"
      | _ => obj
    if property.enums.length > 0 then
      upsert obj name
        (property.enums.getD (randIdx property.enums.length % property.enums.length) "")
    else
      upsert obj name "\"\""
  | "array" => upsert obj name "[]"
  | "integer" => upsert obj name "0"
  | _ => upsert obj name "\"\""

/-! ## The request synthesis pipeline (`generate`) -/

/-- An HTTP request as assembled by the pipeline, with the back-references
the classifier and formatters need (the declared response codes of the
originating operation, and the host of the first server). URL parsing by
`http.NewRequest` is external; the embedding keeps the full URL string and
records the server as the host. -/
structure Request where
  method : String
  url : String
  host : String
  query : List (String × List String)
  headers : List (String × List String)
  body : List (String × String)
  responses : List String
deriving DecidableEq, Repr

/-- Outcome of processing one (path, method) operation: a built request, or
a skip (`continue methods`) recording the one missed parameter name. -/
inductive OpOutcome where
  | built (r : Request)
  | missed (param : String)
deriving DecidableEq, Repr

/-- Insert path parameters: substitute `{name}` with the first resolved
value on `something`; fail the run (strict) or skip the operation
(non-strict) on `nothing`; on `fuzzing` the source leaves the token as-is
(an unimplemented feature skeleton). -/
def substPathParams (compile : String → Option (String → Bool))
    (randIdx : Nat → Nat) (strict : Bool) (db : Cfg) (path title : String) :
    List Parameter → String → Except Err (Sum String String)
  | [], fullPath => .ok (.inl fullPath)
  | parameter :: rest, fullPath => do
    let (values, r) ← lookup compile randIdx db parameter.name path title
    match r with
    | .something => do
      let v ← index0 values
      substPathParams compile randIdx strict db path title rest
        (replaceAllStr fullPath ("\x7b" ++ parameter.name ++ "\x7d") v)
    | .nothing =>
      if strict then
        .error (.genErr ("err: could not find path parameter →" ++ parameter.name))
      else
        .ok (.inr parameter.name)
    | .fuzzing =>
      substPathParams compile randIdx strict db path title rest fullPath

/-- Insert query or header parameters: assign the singleton first resolved
value under the parameter name on `something`; strict-fail or skip on
`nothing`; do nothing on `fuzzing`. `errPre` is the place-specific error
message prefix. -/
def substKV (compile : String → Option (String → Bool)) (randIdx : Nat → Nat)
    (strict : Bool) (db : Cfg) (path title errPre : String) :
    List Parameter → List (String × List String) →
    Except Err (Sum (List (String × List String)) String)
  | [], acc => .ok (.inl acc)
  | parameter :: rest, acc => do
    let (values, r) ← lookup compile randIdx db parameter.name path title
    match r with
    | .something => do
      let v ← index0 values
      substKV compile randIdx strict db path title errPre rest
        (upsert acc parameter.name [v])
    | .nothing =>
      if strict then
        .error (.genErr (errPre ++ parameter.name))
      else
        .ok (.inr parameter.name)
    | .fuzzing =>
      substKV compile randIdx strict db path title errPre rest acc

/-- The body-schema search: the first component schema one of whose
properties refers to `ref` (exactly or with the `#/components/schemas/`
prefix stripped), or whose own name matches (a type with no properties is
never examined, as in the source). -/
def findSchema (schemas : List (String × SchemaType)) (ref refLess : String) :
    Option SchemaType :=
  match schemas.find? (fun ts =>
    ts.2.properties.any (fun p =>
      p.2.itemsRef == ref || p.2.itemsRef == refLess ||
      ts.1 == ref || ts.1 == refLess)) with
  | some ts => some ts.2
  | none => none

/-- Fill the body object property by property: a `something` outcome writes
the first resolved value, `nothing` and `fuzzing` fall back to
`randProperty`. -/
def fillProps (compile : String → Option (String → Bool)) (randIdx : Nat → Nat)
    (db : Cfg) (path title : String) :
    List (String × Property) → List (String × String) →
    Except Err (List (String × String))
  | [], obj => .ok obj
  | (name, property) :: rest, obj => do
    let (values, r) ← lookup compile randIdx db name path title
    match r with
    | .something => do
      let v ← index0 values
      fillProps compile randIdx db path title rest (upsert obj name v)
    | .nothing =>
      fillProps compile randIdx db path title rest (randProperty randIdx obj name property)
    | .fuzzing =>
      fillProps compile randIdx db path title rest (randProperty randIdx obj name property)

/-- Build the JSON body object when the operation requires one (or the
all-bodies override is set): locate the schema by reference and fill its
properties; an unknown scheme leaves the object empty. -/
def buildBody (compile : String → Option (String → Bool)) (randIdx : Nat → Nat)
    (allBodies : Bool) (db : Cfg) (api : API) (path title : String)
    (method : Method) : Except Err (List (String × String)) :=
  if method.requestBody.required || allBodies then
    let ref := method.requestBody.schemaRef
    let refLess := trimPre ref "#/components/schemas/"
    match findSchema api.schemas ref refLess with
    | some target => fillProps compile randIdx db path title target.properties []
    | none => .ok []
  else
    .ok []

/-- Process one (path, method) operation: partition required parameters by
placement, require a server, substitute path parameters, build the body,
then fill query and header parameters; any miss skips the operation. -/
def buildOp (compile : String → Option (String → Bool)) (randIdx : Nat → Nat)
    (strict allBodies : Bool) (proto : String) (api : API) (db : Cfg)
    (path httpMethod : String) (method : Method) : Except Err OpOutcome := do
  let req := method.parameters.filter (fun p => p.required)
  let paths := req.filter (fun p => toLowerStr p.location == "path")
  let queries := req.filter (fun p => toLowerStr p.location == "query")
  let headers := req.filter (fun p => toLowerStr p.location == "header")
  if api.servers.length < 1 then
    .error (.genErr "err: need at least one server to call, none provided")
  else do
  let server ← index0 api.servers
  let fullPath0 := proto ++ server.url ++ path
  match ← substPathParams compile randIdx strict db path api.info.title paths fullPath0 with
  | .inr missName => return .missed missName
  | .inl fullPath => do
    let body ← buildBody compile randIdx allBodies db api path api.info.title method
    match ← substKV compile randIdx strict db path api.info.title
        "err: could not find query parameter → " queries [] with
    | .inr missName => return .missed missName
    | .inl query => do
      match ← substKV compile randIdx strict db path api.info.title
          "err: could not find header parameter → " headers [] with
      | .inr missName => return .missed missName
      | .inl hdrs =>
        return .built
          { method := toUpperStr httpMethod
            url := fullPath
            host := server.url
            query := query
            headers := hdrs
            body := body
            responses := method.responses }

/-- The running accumulator of `generate`: built requests, the miss
counter, and the total operation count. -/
structure GenState where
  requests : List Request
  missing : List (String × Nat)
  totalPossible : Nat
deriving DecidableEq, Repr

/-- Inner loop of `generate` over the methods of one path. -/
def genMethods (compile : String → Option (String → Bool)) (randIdx : Nat → Nat)
    (strict allBodies : Bool) (proto : String) (api : API) (db : Cfg)
    (path : String) : List (String × Method) → GenState → Except Err GenState
  | [], st => .ok st
  | (httpMethod, method) :: rest, st => do
    match ← buildOp compile randIdx strict allBodies proto api db path httpMethod method with
    | .built r =>
      genMethods compile randIdx strict allBodies proto api db path rest
        ⟨st.requests ++ [r], st.missing, st.totalPossible + 1⟩
    | .missed param =>
      genMethods compile randIdx strict allBodies proto api db path rest
        ⟨st.requests, bump st.missing param, st.totalPossible + 1⟩

/-- Outer loop of `generate` over the paths. -/
def genPaths (compile : String → Option (String → Bool)) (randIdx : Nat → Nat)
    (strict allBodies : Bool) (proto : String) (api : API) (db : Cfg) :
    List (String × List (String × Method)) → GenState → Except Err GenState
  | [], st => .ok st
  | (path, methods) :: rest, st => do
    let st' ← genMethods compile randIdx strict allBodies proto api db path methods st
    genPaths compile randIdx strict allBodies proto api db rest st'

/-- Do generation step, all we need is an api and a db: the synthesis
pipeline, returning the requests, the miss counter and the total operation
count (the local `failed` map of the source is never read and is omitted). -/
def generate (compile : String → Option (String → Bool)) (randIdx : Nat → Nat)
    (strict allBodies : Bool) (proto : String) (api : API) (db : Cfg) :
    Except Err (List Request × List (String × Nat) × Nat) := do
  let st ← genPaths compile randIdx strict allBodies proto api db api.paths ⟨[], [], 0⟩
  .ok (st.requests, st.missing, st.totalPossible)

/-! ## Replay results and the response classifier (`validate`) -/

/-- Response represents an HTTP response (the serialisable snapshot the
replay step builds; the TLS connection-state pointer is not modelled). -/
structure Response where
  status : String
  statusCode : Int
  proto : String
  protoMajor : Int
  protoMinor : Int
  header : List (String × List String)
  body : String
  contentLength : Int
  transferEncoding : List String
  close : Bool
  uncompressed : Bool
deriving DecidableEq, Repr

/-- Set pairs a request and response for output formatting. -/
structure Set where
  req : Request
  resp : Response
deriving DecidableEq, Repr

/-- Classify one request/response pair against the declared expected codes
of its operation: a code that fails to parse is an error; a matching actual
status lands in the suspicious bucket, a differing one in the conformant
bucket — once per declared code. -/
def classifyPair (req : Request) (resp : Response) :
    List String → Except Err (List Set × List Set)
  | [] => .ok ([], [])
  | expected :: rest =>
    match atoi expected with
    | none =>
      .error (.genErr ("strconv.Atoi: parsing \"" ++ expected ++ "\": invalid syntax"))
    | some eint => do
      let (sus, ok) ← classifyPair req resp rest
      if eint == resp.statusCode then
        .ok (⟨req, resp⟩ :: sus, ok)
      else
        .ok (sus, ⟨req, resp⟩ :: ok)

/-- Validate against API spec: the response classifier over the replayed
pairs, translated from `validate`. -/
def validate : List (Request × Response) → Except Err (List Set × List Set)
  | [] => .ok ([], [])
  | (req, resp) :: rest => do
    let (sus1, ok1) ← classifyPair req resp req.responses
    let (sus2, ok2) ← validate rest
    .ok (sus1 ++ sus2, ok1 ++ ok2)

/-! ## Output formatters (`printJSON`, `printADO`) -/

/-- One output row of the JSON formatter. -/
structure Group where
  method : String
  httpCode : Int
  path : String
  body : String
deriving DecidableEq, Repr

/-- The info block of the JSON output. -/
structure OutputInfo where
  server : String
  missed : List (String × Nat)
deriving DecidableEq, Repr

/-- The JSON output document (serialisation itself is external). -/
structure Output where
  info : OutputInfo
  conformant : List Group
  suspicious : List Group
deriving DecidableEq, Repr

/-- JSON-formatted output: reads `requests[0].Host` unconditionally for the
server field, then lists the conformant and suspicious groups. -/
def printJSON (requests : List Request) (missed : List (String × Nat))
    (sus ok : List Set) : Except Err Output := do
  let first ← index0 requests
  .ok
    { info := ⟨first.host, missed⟩
      conformant := ok.map (fun s => ⟨s.req.method, s.resp.statusCode, s.req.url, s.resp.body⟩)
      suspicious := sus.map (fun s => ⟨s.req.method, s.resp.statusCode, s.req.url, s.resp.body⟩) }

/-- ADO-formatted output, modelled as the emitted lines: the misc group
reads `requests[0].Host` unconditionally, then the conformant and
suspicious groups are logged when non-empty. -/
def printADO (requests : List Request) (missed : List (String × Nat))
    (sus ok : List Set) : Except Err (List String) := do
  let first ← index0 requests
  let misc :=
    ["##[group]Miscellaneous Info",
     "##[debug]Server we're targeting: `" ++ first.host ++ "`",
     "##[debug]Parameters we missed:"] ++
    missed.map (fun pc =>
      "##[debug]`" ++ pc.1 ++ "` missed " ++ toString pc.2 ++ " times") ++
    ["##[endgroup]"]
  let okLines :=
    if ok.length > 0 then
      ["##[group]Conformant (ok) Responses (" ++ toString ok.length ++ " requests total)"] ++
      (ok.map (fun s =>
        ["##[debug]Conformant Response code `HTTP " ++ toString s.resp.statusCode ++
          "` for path `HTTP " ++ toUpperStr s.req.method ++ "` `" ++ s.req.url ++ "`"] ++
        (if s.resp.body.length > 0 then
          ["##[debug]Body received:\n\n```\n" ++ s.resp.body ++ "\n```"]
        else []))).flatten ++
      ["##[endgroup]"]
    else []
  let susLines :=
    if sus.length > 0 then
      ["##vso[task.logissue type=warning]Suspicious (bad) Responses (" ++
        toString sus.length ++ " requests total)"] ++
      (sus.map (fun s =>
        ["##vso[task.logissue type=warning]Suspicious Response code `HTTP " ++
          toString s.resp.statusCode ++ "` for path `HTTP " ++ toUpperStr s.req.method ++
          "` `" ++ s.req.url ++ "`"] ++
        (if s.resp.body.length > 0 then
          ["##[debug]Body received:\n\n```\n" ++ s.resp.body ++ "\n```"]
        else []))).flatten ++
      ["##[endgroup]"]
    else []
  .ok (misc ++ okLines ++ susLines)

/-! ## Generic helper lemmas -/

theorem getD_mem {α : Type} :
    ∀ (l : List α) (n : Nat) (d : α), n < l.length → l.getD n d ∈ l
  | a :: l, 0, _, _ => List.mem_cons_self a l
  | a :: l, n + 1, d, h =>
    List.mem_cons_of_mem a (getD_mem l n d (Nat.lt_of_succ_lt_succ h))

theorem lookupVal_map_overwrite {α : Type} (k : String) (v : α) :
    ∀ m : List (String × α),
      lookupVal (m.map (fun kv => if kv.1 == k then (kv.1, v) else kv)) k =
        if m.any (fun kv => kv.1 == k) then some v else none := by
  intro m
  induction m with
  | nil => simp [lookupVal]
  | cons kv rest ih =>
    by_cases hk : kv.1 == k
    · simp [lookupVal, List.find?, hk]
    · simp only [List.map_cons, List.any_cons]
      rw [if_neg hk]
      simp only [lookupVal, List.find?] at ih ⊢
      simp only [hk]
      simpa using ih

theorem lookupVal_append_last {α : Type} (k : String) (v : α) :
    ∀ m : List (String × α), m.any (fun kv => kv.1 == k) = false →
      lookupVal (m ++ [(k, v)]) k = some v := by
  intro m
  induction m with
  | nil => simp [lookupVal, List.find?]
  | cons kv rest ih =>
    intro h
    simp only [List.any_cons, Bool.or_eq_false_iff] at h
    simp only [List.cons_append, lookupVal, List.find?, h.1]
    exact ih h.2

theorem lookupVal_upsert {α : Type} (m : List (String × α)) (k : String) (v : α) :
    lookupVal (upsert m k v) k = some v := by
  unfold upsert
  by_cases h : m.any (fun kv => kv.1 == k)
  · rw [if_pos h, lookupVal_map_overwrite, if_pos h]
  · rw [if_neg h, lookupVal_append_last k v m (Bool.eq_false_iff.mpr h)]

/-- An `Except` computation that cannot end in a Go index panic. -/
def NoPanic {α : Type} (x : Except Err α) : Prop :=
  ∀ e, x = .error e → e ≠ .panicIndex

/-- An `Except` computation whose only failure mode is the process-exiting
`fatal`. -/
def FatalOnly {α : Type} (x : Except Err α) : Prop :=
  ∀ e, x = .error e → ∃ m, e = .fatal m

theorem noPanic_ok {α : Type} (a : α) : NoPanic (Except.ok a : Except Err α) :=
  fun _ he => Except.noConfusion he

theorem noPanic_fatal {α : Type} (m : String) :
    NoPanic (Except.error (Err.fatal m) : Except Err α) := by
  intro e he hc
  rw [hc] at he
  cases Except.error.inj he

theorem noPanic_genErr {α : Type} (m : String) :
    NoPanic (Except.error (Err.genErr m) : Except Err α) := by
  intro e he hc
  rw [hc] at he
  cases Except.error.inj he

theorem fatalOnly_noPanic {α : Type} {x : Except Err α} (h : FatalOnly x) :
    NoPanic x := by
  intro e he hc
  obtain ⟨m, hm⟩ := h e he
  rw [hm] at hc
  cases hc

theorem bind_err {α β : Type} {x : Except Err α} {f : α → Except Err β} {e : Err}
    (h : (x >>= f) = .error e) :
    x = .error e ∨ ∃ a, x = .ok a ∧ f a = .error e := by
  cases x with
  | error err =>
    left
    have hh : (Except.error err : Except Err β) = .error e := h
    rw [Except.error.inj hh]
  | ok a =>
    right
    exact ⟨a, rfl, h⟩

theorem bind_ok_inv {α β : Type} {x : Except Err α} {f : α → Except Err β} {b : β}
    (h : (x >>= f) = .ok b) : ∃ a, x = .ok a ∧ f a = .ok b := by
  cases x with
  | error err => cases (h : (Except.error err : Except Err β) = .ok b)
  | ok a => exact ⟨a, rfl, h⟩

theorem noPanic_bind {α β : Type} {x : Except Err α} {f : α → Except Err β}
    (hx : NoPanic x) (hf : ∀ a, x = .ok a → NoPanic (f a)) :
    NoPanic (x >>= f) := by
  intro e he
  rcases bind_err he with h | ⟨a, ha, hfa⟩
  · exact hx e h
  · exact hf a ha e hfa

/-! ## Resolver lemmas -/

theorem validOf_fatal (compile : String → Option (String → Bool))
    (u : Bool) (v t : String) : FatalOnly (validOf compile u v t) := by
  intro e he
  unfold validOf at he
  split at he
  · split at he
    · exact ⟨_, (Except.error.inj he).symm⟩
    · cases he
  · cases he

theorem searchAttrs_fatal (compile : String → Option (String → Bool))
    (u : Bool) (path title : String) :
    ∀ (attrs : List Attribute) (res : Bool),
      FatalOnly (searchAttrs (validOf compile u) path title attrs res) := by
  intro attrs
  induction attrs with
  | nil => intro res e he; cases he
  | cons a rest ih =>
    intro res e he
    unfold searchAttrs at he
    split at he
    · exact ih res e he
    · rcases bind_err he with h | ⟨b, _, hb⟩
      · exact validOf_fatal compile u a.value _ e h
      · split at hb
        · exact ih true e hb
        · cases hb

theorem matchTuple_fatal (compile : String → Option (String → Bool))
    (path title : String) (t : Tuple) :
    FatalOnly (matchTuple compile path title t) :=
  searchAttrs_fatal compile (regexEngaged t) path title (scannedAttrs t) false

theorem matchTuples_fatal (compile : String → Option (String → Bool))
    (path title : String) :
    ∀ ts : List Tuple, FatalOnly (matchTuples compile path title ts) := by
  intro ts
  induction ts with
  | nil => intro e he; cases he
  | cons t rest ih =>
    intro e he
    unfold matchTuples at he
    rcases bind_err he with h | ⟨b, _, hb⟩
    · exact matchTuple_fatal compile path title t e h
    · split at hb
      · cases hb
      · exact ih e hb

theorem disallowGate_fatal (compile : String → Option (String → Bool))
    (path title : String) (record : Record) :
    FatalOnly (disallowGate compile path title record) := by
  intro e he
  unfold disallowGate at he
  split at he
  · exact matchTuples_fatal compile path title _ e he
  · cases he

theorem permitGate_fatal (compile : String → Option (String → Bool))
    (path title : String) (record : Record) :
    FatalOnly (permitGate compile path title record) := by
  intro e he
  unfold permitGate at he
  split at he
  · split at he
    · rename_i hmt
      exact matchTuples_fatal compile path title _ e ((Except.error.inj he) ▸ hmt)
    · cases he
  · cases he

theorem lookupStep_fatal (compile : String → Option (String → Bool))
    (randIdx : Nat → Nat) (path title : String) (primaryValue : List String)
    (properties : Option (List Attribute)) (st : LookupState) (record : Record) :
    FatalOnly (lookupStep compile randIdx path title primaryValue properties st record) := by
  intro e he
  unfold lookupStep at he
  split at he
  · rename_i hgate
    exact disallowGate_fatal compile path title record e ((Except.error.inj he) ▸ hgate)
  · cases he
  · split at he
    · rename_i hgate
      exact permitGate_fatal compile path title record e ((Except.error.inj he) ▸ hgate)
    · cases he
    · cases he

theorem lookupFold_fatal (compile : String → Option (String → Bool))
    (randIdx : Nat → Nat) (path title : String) (primaryValue : List String)
    (properties : Option (List Attribute)) :
    ∀ (records : List Record) (st : LookupState),
      FatalOnly (lookupFold compile randIdx path title primaryValue properties records st) := by
  intro records
  induction records with
  | nil => intro st e he; cases he
  | cons r rest ih =>
    intro st e he
    unfold lookupFold at he
    split at he
    · rename_i hstep
      exact lookupStep_fatal compile randIdx path title primaryValue properties st r e
        ((Except.error.inj he) ▸ hstep)
    · exact ih _ e he

theorem lookupBody_fatal (compile : String → Option (String → Bool))
    (randIdx : Nat → Nat) (c : Cfg) (name path title : String)
    (primaryValue : List String) :
    FatalOnly (lookupBody compile randIdx c name path title primaryValue) := by
  intro e he
  unfold lookupBody at he
  split at he
  · cases he
  · split at he
    · cases he
    · split at he
      · cases he
      · split at he
        · rename_i hfold
          exact lookupFold_fatal compile randIdx path title primaryValue _ _ _ e
            ((Except.error.inj he) ▸ hfold)
        · cases he

theorem lookup_fatal (compile : String → Option (String → Bool))
    (randIdx : Nat → Nat) (c : Cfg) (name path title : String) :
    FatalOnly (lookup compile randIdx c name path title) := by
  intro e he
  unfold lookup at he
  split at he
  · cases he
  · exact lookupBody_fatal compile randIdx c name path title _ e he

theorem lookup_noPanic (compile : String → Option (String → Bool))
    (randIdx : Nat → Nat) (c : Cfg) (name path title : String) :
    NoPanic (lookup compile randIdx c name path title) :=
  fatalOnly_noPanic (lookup_fatal compile randIdx c name path title)

theorem lookupBody_something_ne_nil (compile : String → Option (String → Bool))
    (randIdx : Nat → Nat) (c : Cfg) (name path title : String)
    (primaryValue : List String) (vs : List String)
    (h : lookupBody compile randIdx c name path title primaryValue =
      .ok (vs, .something)) : vs ≠ [] := by
  unfold lookupBody at h
  split at h
  · cases (Prod.mk.injEq .. ▸ Except.ok.inj h).2
  · split at h
    · rename_i hcond
      have hv : primaryValue.length > 0 :=
        of_decide_eq_true (Bool.and_eq_true .. ▸ hcond).2
      have hvs : vs = primaryValue :=
        ((Prod.mk.injEq .. ▸ Except.ok.inj h).1).symm
      rw [hvs]
      intro hnil
      rw [hnil] at hv
      cases hv
    · split at h
      · cases (Prod.mk.injEq .. ▸ Except.ok.inj h).2
      · split at h
        · cases h
        · rename_i st hfold
          have hvs : vs = st.out :=
            ((Prod.mk.injEq .. ▸ Except.ok.inj h).1).symm
          have hr := (Prod.mk.injEq .. ▸ Except.ok.inj h).2
          revert hr
          split
          · intro hr; cases hr
          · split
            · rename_i hlen
              intro _
              rw [hvs]
              intro hnil
              rw [hnil] at hlen
              cases hlen
            · intro hr; cases hr

theorem lookup_something_ne_nil (compile : String → Option (String → Bool))
    (randIdx : Nat → Nat) (c : Cfg) (name path title : String)
    (vs : List String)
    (h : lookup compile randIdx c name path title = .ok (vs, .something)) :
    vs ≠ [] := by
  unfold lookup at h
  split at h
  · cases (Prod.mk.injEq .. ▸ Except.ok.inj h).2
  · exact lookupBody_something_ne_nil compile randIdx c name path title _ vs h

/-! ## Synthesis lemmas: no `values[0]` access ever goes out of bounds -/

theorem substPathParams_noPanic (compile : String → Option (String → Bool))
    (randIdx : Nat → Nat) (strict : Bool) (db : Cfg) (path title : String) :
    ∀ (ps : List Parameter) (fp : String),
      NoPanic (substPathParams compile randIdx strict db path title ps fp) := by
  intro ps
  induction ps with
  | nil => intro fp e he; cases he
  | cons p rest ih =>
    intro fp
    unfold substPathParams
    apply noPanic_bind (lookup_noPanic compile randIdx db p.name path title)
    rintro ⟨values, r⟩ hlk
    cases r with
    | something =>
      have hne := lookup_something_ne_nil compile randIdx db p.name path title values hlk
      cases values with
      | nil => exact absurd rfl hne
      | cons v vs =>
        apply noPanic_bind (noPanic_ok v)
        intro a _
        exact ih _
    | nothing =>
      cases strict with
      | true => exact noPanic_genErr _
      | false => exact noPanic_ok _
    | fuzzing => exact ih fp

theorem substKV_noPanic (compile : String → Option (String → Bool))
    (randIdx : Nat → Nat) (strict : Bool) (db : Cfg) (path title errPre : String) :
    ∀ (ps : List Parameter) (acc : List (String × List String)),
      NoPanic (substKV compile randIdx strict db path title errPre ps acc) := by
  intro ps
  induction ps with
  | nil => intro acc e he; cases he
  | cons p rest ih =>
    intro acc
    unfold substKV
    apply noPanic_bind (lookup_noPanic compile randIdx db p.name path title)
    rintro ⟨values, r⟩ hlk
    cases r with
    | something =>
      have hne := lookup_something_ne_nil compile randIdx db p.name path title values hlk
      cases values with
      | nil => exact absurd rfl hne
      | cons v vs =>
        apply noPanic_bind (noPanic_ok v)
        intro a _
        exact ih _
    | nothing =>
      cases strict with
      | true => exact noPanic_genErr _
      | false => exact noPanic_ok _
    | fuzzing => exact ih acc

theorem fillProps_noPanic (compile : String → Option (String → Bool))
    (randIdx : Nat → Nat) (db : Cfg) (path title : String) :
    ∀ (props : List (String × Property)) (obj : List (String × String)),
      NoPanic (fillProps compile randIdx db path title props obj) := by
  intro props
  induction props with
  | nil => intro obj e he; cases he
  | cons np rest ih =>
    intro obj
    unfold fillProps
    apply noPanic_bind (lookup_noPanic compile randIdx db np.1 path title)
    rintro ⟨values, r⟩ hlk
    cases r with
    | something =>
      have hne := lookup_something_ne_nil compile randIdx db np.1 path title values hlk
      cases values with
      | nil => exact absurd rfl hne
      | cons v vs =>
        apply noPanic_bind (noPanic_ok v)
        intro a _
        exact ih _
    | nothing => exact ih _
    | fuzzing => exact ih _

theorem buildBody_noPanic (compile : String → Option (String → Bool))
    (randIdx : Nat → Nat) (allBodies : Bool) (db : Cfg) (api : API)
    (path title : String) (method : Method) :
    NoPanic (buildBody compile randIdx allBodies db api path title method) := by
  unfold buildBody
  split
  · dsimp only
    split
    · exact fillProps_noPanic compile randIdx db path title _ _
    · exact noPanic_ok _
  · exact noPanic_ok _

theorem buildOp_noPanic (compile : String → Option (String → Bool))
    (randIdx : Nat → Nat) (strict allBodies : Bool) (proto : String)
    (api : API) (db : Cfg) (path httpMethod : String) (method : Method) :
    NoPanic (buildOp compile randIdx strict allBodies proto api db path httpMethod method) := by
  unfold buildOp
  split
  · exact noPanic_genErr _
  · rename_i hlen
    cases hs : api.servers with
    | nil => rw [hs] at hlen; simp at hlen
    | cons s ss =>
      apply noPanic_bind (noPanic_ok s)
      intro server _
      apply noPanic_bind (substPathParams_noPanic compile randIdx strict db path api.info.title _ _)
      intro pr _
      cases pr with
      | inr missName => exact noPanic_ok _
      | inl fullPath =>
        apply noPanic_bind (buildBody_noPanic compile randIdx allBodies db api path api.info.title method)
        intro body _
        apply noPanic_bind (substKV_noPanic compile randIdx strict db path api.info.title _ _ _)
        intro qr _
        cases qr with
        | inr missName => exact noPanic_ok _
        | inl query =>
          apply noPanic_bind (substKV_noPanic compile randIdx strict db path api.info.title _ _ _)
          intro hr _
          cases hr with
          | inr missName => exact noPanic_ok _
          | inl hdrs => exact noPanic_ok _

theorem genMethods_noPanic (compile : String → Option (String → Bool))
    (randIdx : Nat → Nat) (strict allBodies : Bool) (proto : String)
    (api : API) (db : Cfg) (path : String) :
    ∀ (ms : List (String × Method)) (st : GenState),
      NoPanic (genMethods compile randIdx strict allBodies proto api db path ms st) := by
  intro ms
  induction ms with
  | nil => intro st e he; cases he
  | cons mm rest ih =>
    intro st
    unfold genMethods
    apply noPanic_bind (buildOp_noPanic compile randIdx strict allBodies proto api db path mm.1 mm.2)
    intro oc _
    cases oc with
    | built r => exact ih _
    | missed param => exact ih _

theorem genPaths_noPanic (compile : String → Option (String → Bool))
    (randIdx : Nat → Nat) (strict allBodies : Bool) (proto : String)
    (api : API) (db : Cfg) :
    ∀ (ps : List (String × List (String × Method))) (st : GenState),
      NoPanic (genPaths compile randIdx strict allBodies proto api db ps st) := by
  intro ps
  induction ps with
  | nil => intro st e he; cases he
  | cons pm rest ih =>
    intro st
    unfold genPaths
    apply noPanic_bind (genMethods_noPanic compile randIdx strict allBodies proto api db pm.1 pm.2 st)
    intro st' _
    exact ih st'

theorem generate_noPanic (compile : String → Option (String → Bool))
    (randIdx : Nat → Nat) (strict allBodies : Bool) (proto : String)
    (api : API) (db : Cfg) :
    NoPanic (generate compile randIdx strict allBodies proto api db) := by
  unfold generate
  apply noPanic_bind (genPaths_noPanic compile randIdx strict allBodies proto api db api.paths _)
  intro st _
  exact noPanic_ok _

/-! ## Per-parameter behaviour of path substitution, and generation order -/

theorem substPathParams_something_eq (compile : String → Option (String → Bool))
    (randIdx : Nat → Nat) (strict : Bool) (db : Cfg) (path title : String)
    (p : Parameter) (rest : List Parameter) (fp v : String) (vs : List String)
    (h : lookup compile randIdx db p.name path title = .ok (v :: vs, .something)) :
    substPathParams compile randIdx strict db path title (p :: rest) fp =
      substPathParams compile randIdx strict db path title rest
        (replaceAllStr fp ("\x7b" ++ p.name ++ "\x7d") v) := by
  simp only [substPathParams]
  rw [h]
  rfl

theorem substPathParams_fuzzing_eq (compile : String → Option (String → Bool))
    (randIdx : Nat → Nat) (strict : Bool) (db : Cfg) (path title : String)
    (p : Parameter) (rest : List Parameter) (fp : String) (vs : List String)
    (h : lookup compile randIdx db p.name path title = .ok (vs, .fuzzing)) :
    substPathParams compile randIdx strict db path title (p :: rest) fp =
      substPathParams compile randIdx strict db path title rest fp := by
  simp only [substPathParams]
  rw [h]
  rfl

theorem substPathParams_nothing_strict_eq (compile : String → Option (String → Bool))
    (randIdx : Nat → Nat) (db : Cfg) (path title : String)
    (p : Parameter) (rest : List Parameter) (fp : String) (vs : List String)
    (h : lookup compile randIdx db p.name path title = .ok (vs, .nothing)) :
    substPathParams compile randIdx true db path title (p :: rest) fp =
      .error (.genErr ("err: could not find path parameter →" ++ p.name)) := by
  simp only [substPathParams]
  rw [h]
  rfl

theorem substPathParams_nothing_skip_eq (compile : String → Option (String → Bool))
    (randIdx : Nat → Nat) (db : Cfg) (path title : String)
    (p : Parameter) (rest : List Parameter) (fp : String) (vs : List String)
    (h : lookup compile randIdx db p.name path title = .ok (vs, .nothing)) :
    substPathParams compile randIdx false db path title (p :: rest) fp =
      .ok (.inr p.name) := by
  simp only [substPathParams]
  rw [h]
  rfl

theorem genMethods_missed_eq (compile : String → Option (String → Bool))
    (randIdx : Nat → Nat) (strict allBodies : Bool) (proto : String)
    (api : API) (db : Cfg) (path httpMethod : String) (method : Method)
    (rest : List (String × Method)) (st : GenState) (q : String)
    (h : buildOp compile randIdx strict allBodies proto api db path httpMethod method =
      .ok (.missed q)) :
    genMethods compile randIdx strict allBodies proto api db path
        ((httpMethod, method) :: rest) st =
      genMethods compile randIdx strict allBodies proto api db path rest
        ⟨st.requests, bump st.missing q, st.totalPossible + 1⟩ := by
  simp only [genMethods]
  rw [h]
  rfl

theorem genMethods_built_eq (compile : String → Option (String → Bool))
    (randIdx : Nat → Nat) (strict allBodies : Bool) (proto : String)
    (api : API) (db : Cfg) (path httpMethod : String) (method : Method)
    (rest : List (String × Method)) (st : GenState) (r : Request)
    (h : buildOp compile randIdx strict allBodies proto api db path httpMethod method =
      .ok (.built r)) :
    genMethods compile randIdx strict allBodies proto api db path
        ((httpMethod, method) :: rest) st =
      genMethods compile randIdx strict allBodies proto api db path rest
        ⟨st.requests ++ [r], st.missing, st.totalPossible + 1⟩ := by
  simp only [genMethods]
  rw [h]
  rfl

/-- The (path, method) operations of a specification tree, in visit order. -/
def visitOps (api : API) : List (String × String × Method) :=
  (api.paths.map (fun pm => pm.2.map (fun mm => (pm.1, mm.1, mm.2)))).flatten

/-- The request one operation yields, when it yields one. -/
def builtOf (compile : String → Option (String → Bool)) (randIdx : Nat → Nat)
    (strict allBodies : Bool) (proto : String) (api : API) (db : Cfg)
    (op : String × String × Method) : Option Request :=
  match buildOp compile randIdx strict allBodies proto api db op.1 op.2.1 op.2.2 with
  | .ok (.built r) => some r
  | _ => none

theorem genMethods_ok_spec (compile : String → Option (String → Bool))
    (randIdx : Nat → Nat) (strict allBodies : Bool) (proto : String)
    (api : API) (db : Cfg) (path : String) :
    ∀ (ms : List (String × Method)) (st st' : GenState),
      genMethods compile randIdx strict allBodies proto api db path ms st = .ok st' →
      st'.requests = st.requests ++
        (ms.map (fun mm => (path, mm.1, mm.2))).filterMap
          (builtOf compile randIdx strict allBodies proto api db) ∧
      st'.totalPossible = st.totalPossible + ms.length := by
  intro ms
  induction ms with
  | nil =>
    intro st st' h
    have hst : st = st' := Except.ok.inj h
    simp [hst]
  | cons mm rest ih =>
    intro st st' h
    obtain ⟨m, meth⟩ := mm
    unfold genMethods at h
    rcases bind_ok_inv h with ⟨oc, hoc, hcont⟩
    cases oc with
    | built r =>
      have hb : builtOf compile randIdx strict allBodies proto api db (path, m, meth) = some r := by
        unfold builtOf
        rw [hoc]
      obtain ⟨h1, h2⟩ := ih _ _ hcont
      constructor
      · rw [h1]
        simp [List.filterMap_cons, hb]
      · rw [h2]
        simp
        omega
    | missed param =>
      have hb : builtOf compile randIdx strict allBodies proto api db (path, m, meth) = none := by
        unfold builtOf
        rw [hoc]
      obtain ⟨h1, h2⟩ := ih _ _ hcont
      constructor
      · rw [h1]
        simp [List.filterMap_cons, hb]
      · rw [h2]
        simp
        omega

theorem genPaths_ok_spec (compile : String → Option (String → Bool))
    (randIdx : Nat → Nat) (strict allBodies : Bool) (proto : String)
    (api : API) (db : Cfg) :
    ∀ (ps : List (String × List (String × Method))) (st st' : GenState),
      genPaths compile randIdx strict allBodies proto api db ps st = .ok st' →
      st'.requests = st.requests ++
        ((ps.map (fun pm => pm.2.map (fun mm => (pm.1, mm.1, mm.2)))).flatten).filterMap
          (builtOf compile randIdx strict allBodies proto api db) ∧
      st'.totalPossible = st.totalPossible +
        ((ps.map (fun pm => pm.2.map (fun mm => (pm.1, mm.1, mm.2)))).flatten).length := by
  intro ps
  induction ps with
  | nil =>
    intro st st' h
    have hst : st = st' := Except.ok.inj h
    simp [hst]
  | cons pm rest ih =>
    intro st st' h
    unfold genPaths at h
    rcases bind_ok_inv h with ⟨st1, hst1, hcont⟩
    obtain ⟨g1, g2⟩ := genMethods_ok_spec compile randIdx strict allBodies proto api db
      pm.1 pm.2 st st1 hst1
    obtain ⟨h1, h2⟩ := ih _ _ hcont
    constructor
    · rw [h1, g1]
      simp [List.filterMap_append, List.append_assoc]
    · rw [h2, g2]
      simp
      omega

theorem generate_ok_spec (compile : String → Option (String → Bool))
    (randIdx : Nat → Nat) (strict allBodies : Bool) (proto : String)
    (api : API) (db : Cfg) (reqs : List Request) (miss : List (String × Nat))
    (total : Nat)
    (h : generate compile randIdx strict allBodies proto api db = .ok (reqs, miss, total)) :
    reqs = (visitOps api).filterMap
      (builtOf compile randIdx strict allBodies proto api db) ∧
    total = (visitOps api).length := by
  unfold generate at h
  rcases bind_ok_inv h with ⟨st, hst, hret⟩
  have hcomp := Except.ok.inj hret
  obtain ⟨h1, h2⟩ := genPaths_ok_spec compile randIdx strict allBodies proto api db
    api.paths ⟨[], [], 0⟩ st hst
  have hreq : reqs = st.requests := by
    have := congrArg Prod.fst hcomp
    simpa using this.symm
  have htot : total = st.totalPossible := by
    have := congrArg (fun x => x.2.2) hcomp
    simpa using this.symm
  constructor
  · rw [hreq, h1]
    simp [visitOps]
  · rw [htot, h2]
    simp [visitOps]

/-! ## Tuple-matching lemmas -/

theorem searchAttrs_skip (valid : String → String → Except Err Bool)
    (path title : String) (a : Attribute) (rest : List Attribute) (res : Bool)
    (h : testOf path title a = none) :
    searchAttrs valid path title (a :: rest) res =
      searchAttrs valid path title rest res := by
  simp only [searchAttrs]
  rw [h]

theorem searchAttrs_fail (valid : String → String → Except Err Bool)
    (path title : String) (a : Attribute) (rest : List Attribute) (res : Bool)
    (t : String) (ht : testOf path title a = some t)
    (hv : valid a.value t = .ok false) :
    searchAttrs valid path title (a :: rest) res = .ok false := by
  simp only [searchAttrs]
  rw [ht]
  dsimp only
  rw [hv]
  rfl

theorem searchAttrs_succeed_step (valid : String → String → Except Err Bool)
    (path title : String) (a : Attribute) (rest : List Attribute) (res : Bool)
    (t : String) (ht : testOf path title a = some t)
    (hv : valid a.value t = .ok true) :
    searchAttrs valid path title (a :: rest) res =
      searchAttrs valid path title rest true := by
  simp only [searchAttrs]
  rw [ht]
  dsimp only
  rw [hv]
  rfl

theorem searchAttrs_all_true (valid : String → String → Except Err Bool)
    (path title : String) :
    ∀ (attrs : List Attribute) (res : Bool),
      (∀ a ∈ attrs, ∀ t, testOf path title a = some t → valid a.value t = .ok true) →
      ((∃ a ∈ attrs, (testOf path title a).isSome) →
        searchAttrs valid path title attrs res = .ok true) ∧
      ((∀ a ∈ attrs, testOf path title a = none) →
        searchAttrs valid path title attrs res = .ok res) := by
  intro attrs
  induction attrs with
  | nil =>
    intro res _
    exact ⟨fun hex => absurd hex (by simp), fun _ => rfl⟩
  | cons a rest ih =>
    intro res h
    have hrest : ∀ x ∈ rest, ∀ t, testOf path title x = some t → valid x.value t = .ok true :=
      fun x hx => h x (List.mem_cons_of_mem a hx)
    constructor
    · rintro ⟨b, hb, hbs⟩
      cases hT : testOf path title a with
      | none =>
        rw [searchAttrs_skip valid path title a rest res hT]
        rcases List.mem_cons.mp hb with hba | hbr
        · rw [hba] at hbs
          rw [hT] at hbs
          cases hbs
        · exact (ih res hrest).1 ⟨b, hbr, hbs⟩
      | some t =>
        have hv := h a (List.mem_cons_self a rest) t hT
        rw [searchAttrs_succeed_step valid path title a rest res t hT hv]
        by_cases hall : ∀ x ∈ rest, testOf path title x = none
        · exact (ih true hrest).2 hall
        · push_neg at hall
          obtain ⟨x, hx, hxne⟩ := hall
          exact (ih true hrest).1 ⟨x, hx, Option.ne_none_iff_isSome.mp hxne⟩
    · intro hall
      rw [searchAttrs_skip valid path title a rest res (hall a (List.mem_cons_self a rest))]
      exact (ih res hrest).2 (fun x hx => hall x (List.mem_cons_of_mem a hx))

theorem matchTuple_unrecognized (compile : String → Option (String → Bool))
    (path title : String) (t : Tuple)
    (h : ∀ a ∈ scannedAttrs t, testOf path title a = none) :
    matchTuple compile path title t = .ok false := by
  unfold matchTuple
  exact (searchAttrs_all_true (validOf compile (regexEngaged t)) path title
    (scannedAttrs t) false
    (fun a ha ta hta => absurd hta (by rw [h a ha]; intro hc; cases hc))).2 h

theorem validOf_compile_fail (compile : String → Option (String → Bool))
    (v t : String) (h : compile v = none) :
    validOf compile true v t =
      .error (.fatal ("err: could not compile regex \"" ++ v ++ "\" →")) := by
  simp [validOf, h]

theorem searchAttrs_regex_fatal (compile : String → Option (String → Bool))
    (path title : String) :
    ∀ (pre : List Attribute) (a : Attribute) (post : List Attribute) (res : Bool),
      (∀ b ∈ pre, ∀ tb, testOf path title b = some tb →
        ∃ m, compile b.value = some m ∧ m tb = true) →
      (testOf path title a).isSome → compile a.value = none →
      searchAttrs (validOf compile true) path title (pre ++ a :: post) res =
        .error (.fatal ("err: could not compile regex \"" ++ a.value ++ "\" →")) := by
  intro pre
  induction pre with
  | nil =>
    intro a post res _ hsome hnone
    obtain ⟨ta, hta⟩ := Option.isSome_iff_exists.mp hsome
    rw [List.nil_append]
    simp only [searchAttrs]
    rw [hta]
    dsimp only
    rw [validOf_compile_fail compile a.value ta hnone]
    rfl
  | cons b pre ih =>
    intro a post res hpre hsome hnone
    have hpre' : ∀ x ∈ pre, ∀ tb, testOf path title x = some tb →
        ∃ m, compile x.value = some m ∧ m tb = true :=
      fun x hx => hpre x (List.mem_cons_of_mem b hx)
    rw [List.cons_append]
    cases hT : testOf path title b with
    | none =>
      rw [searchAttrs_skip (validOf compile true) path title b _ res hT]
      exact ih a post res hpre' hsome hnone
    | some tb =>
      obtain ⟨m, hm, hmt⟩ := hpre b (List.mem_cons_self b pre) tb hT
      have hv : validOf compile true b.value tb = .ok true := by
        simp [validOf, hm, hmt]
      rw [searchAttrs_succeed_step (validOf compile true) path title b _ res tb hT hv]
      exact ih a post true hpre' hsome hnone

theorem matchTuple_regex_fatal (compile : String → Option (String → Bool))
    (path title : String) (t : Tuple) (pre : List Attribute) (a : Attribute)
    (post : List Attribute)
    (heng : regexEngaged t = true)
    (hscan : scannedAttrs t = pre ++ a :: post)
    (hpre : ∀ b ∈ pre, ∀ tb, testOf path title b = some tb →
      ∃ m, compile b.value = some m ∧ m tb = true)
    (hsome : (testOf path title a).isSome) (hnone : compile a.value = none) :
    matchTuple compile path title t =
      .error (.fatal ("err: could not compile regex \"" ++ a.value ++ "\" →")) := by
  unfold matchTuple
  rw [heng, hscan]
  exact searchAttrs_regex_fatal compile path title pre a post false hpre hsome hnone

/-! ## Synthetic body default lemmas -/

theorem randProperty_string_enum (randIdx : Nat → Nat)
    (obj : List (String × String)) (name : String) (p : Property)
    (hs : p.type = "string") (he : p.enums ≠ []) :
    ∃ v, v ∈ p.enums ∧
      lookupVal (randProperty randIdx obj name p) name = some v := by
  refine ⟨p.enums.getD (randIdx p.enums.length % p.enums.length) "", ?_, ?_⟩
  · apply getD_mem
    apply Nat.mod_lt
    cases hcase : p.enums with
    | nil => exact absurd hcase he
    | cons x xs => simp [hcase]
  · have hlen : p.enums.length > 0 := by
      cases hcase : p.enums with
      | nil => exact absurd hcase he
      | cons x xs => simp [hcase]
    simp only [randProperty, hs]
    rw [if_pos hlen]
    exact lookupVal_upsert _ _ _

theorem randProperty_string_noenum (randIdx : Nat → Nat)
    (obj : List (String × String)) (name : String) (p : Property)
    (hs : p.type = "string") (he : p.enums = []) :
    lookupVal (randProperty randIdx obj name p) name = some "\"\"" := by
  simp only [randProperty, hs, he]
  exact lookupVal_upsert _ _ _

theorem randProperty_array (randIdx : Nat → Nat)
    (obj : List (String × String)) (name : String) (p : Property)
    (hs : p.type = "array") :
    lookupVal (randProperty randIdx obj name p) name = some "[]" := by
  simp only [randProperty, hs]
  exact lookupVal_upsert _ _ _

theorem randProperty_integer (randIdx : Nat → Nat)
    (obj : List (String × String)) (name : String) (p : Property)
    (hs : p.type = "integer") :
    lookupVal (randProperty randIdx obj name p) name = some "0" := by
  simp only [randProperty, hs]
  exact lookupVal_upsert _ _ _

theorem randProperty_other (randIdx : Nat → Nat)
    (obj : List (String × String)) (name : String) (p : Property)
    (h1 : p.type ≠ "string") (h2 : p.type ≠ "array") (h3 : p.type ≠ "integer") :
    lookupVal (randProperty randIdx obj name p) name = some "\"\"" := by
  unfold randProperty
  split
  · rename_i heq; exact absurd heq h1
  · rename_i heq; exact absurd heq h2
  · rename_i heq; exact absurd heq h3
  · exact lookupVal_upsert _ _ _

/-! ## Classifier lemmas -/

/-- The suspicious-bucket contribution of one replayed pair: one entry per
declared code whose integer value equals the actual status. -/
def susOf (pr : Request × Response) : List Set :=
  (pr.1.responses.filter (fun c => atoi c == some pr.2.statusCode)).map
    (fun _ => ⟨pr.1, pr.2⟩)

/-- The conformant-bucket contribution of one replayed pair: one entry per
declared code whose integer value differs from the actual status. -/
def okOf (pr : Request × Response) : List Set :=
  (pr.1.responses.filter (fun c => !(atoi c == some pr.2.statusCode))).map
    (fun _ => ⟨pr.1, pr.2⟩)

theorem classifyPair_ok_spec (req : Request) (resp : Response) :
    ∀ codes : List String, (∀ c ∈ codes, (atoi c).isSome) →
      classifyPair req resp codes = .ok (
        (codes.filter (fun c => atoi c == some resp.statusCode)).map
          (fun _ => (⟨req, resp⟩ : Set)),
        (codes.filter (fun c => !(atoi c == some resp.statusCode))).map
          (fun _ => (⟨req, resp⟩ : Set))) := by
  intro codes
  induction codes with
  | nil => intro _; rfl
  | cons c rest ih =>
    intro h
    obtain ⟨e, he⟩ := Option.isSome_iff_exists.mp (h c (List.mem_cons_self c rest))
    have hrest := ih (fun x hx => h x (List.mem_cons_of_mem c hx))
    simp only [classifyPair]
    rw [he]
    dsimp only
    rw [hrest]
    have hpred : (atoi c == some resp.statusCode) = (e == resp.statusCode) := by
      rw [he]
      rfl
    by_cases hbe : (e == resp.statusCode) = true
    · simp only [List.filter_cons, hpred, hbe]
      simp
      rfl
    · have hbe' : (e == resp.statusCode) = false := Bool.eq_false_iff.mpr hbe
      simp only [List.filter_cons, hpred, hbe']
      simp
      rfl

theorem validate_ok_spec :
    ∀ pairs : List (Request × Response),
      (∀ pr ∈ pairs, ∀ c ∈ pr.1.responses, (atoi c).isSome) →
      validate pairs = .ok ((pairs.map susOf).flatten, (pairs.map okOf).flatten) := by
  intro pairs
  induction pairs with
  | nil => intro _; rfl
  | cons pr rest ih =>
    intro h
    obtain ⟨req, resp⟩ := pr
    have hhead := classifyPair_ok_spec req resp req.responses
      (h (req, resp) (List.mem_cons_self _ rest))
    have hrest := ih (fun x hx => h x (List.mem_cons_of_mem _ hx))
    simp only [validate]
    rw [hhead, hrest]
    simp [susOf, okOf]
    rfl

theorem classifyPair_err_of_bad (req : Request) (resp : Response) :
    ∀ codes : List String, (∃ c ∈ codes, atoi c = none) →
      ∃ e, classifyPair req resp codes = .error e := by
  intro codes
  induction codes with
  | nil => rintro ⟨c, hc, -⟩; exact absurd hc (by simp)
  | cons c rest ih =>
    rintro ⟨x, hx, hnone⟩
    cases hac : atoi c with
    | none =>
      refine ⟨.genErr ("strconv.Atoi: parsing \"" ++ c ++ "\": invalid syntax"), ?_⟩
      simp only [classifyPair]
      rw [hac]
    | some e =>
      rcases List.mem_cons.mp hx with hxc | hxr
      · rw [hxc] at hnone
        rw [hnone] at hac
        cases hac
      · obtain ⟨e', he'⟩ := ih ⟨x, hxr, hnone⟩
        refine ⟨e', ?_⟩
        simp only [classifyPair]
        rw [hac]
        rw [he']
        rfl

theorem validate_err_of_bad :
    ∀ pairs : List (Request × Response),
      (∃ pr ∈ pairs, ∃ c ∈ pr.1.responses, atoi c = none) →
      ∃ e, validate pairs = .error e := by
  intro pairs
  induction pairs with
  | nil => rintro ⟨pr, hpr, -⟩; exact absurd hpr (by simp)
  | cons pr rest ih =>
    rintro ⟨x, hx, hbad⟩
    obtain ⟨req, resp⟩ := pr
    rcases List.mem_cons.mp hx with hxp | hxr
    · obtain ⟨e, he⟩ := classifyPair_err_of_bad req resp req.responses (by rw [hxp] at hbad; exact hbad)
      refine ⟨e, ?_⟩
      simp only [validate]
      rw [he]
      rfl
    · cases hcp : classifyPair req resp req.responses with
      | error e =>
        refine ⟨e, ?_⟩
        simp only [validate]
        rw [hcp]
        rfl
      | ok so =>
        obtain ⟨s, o⟩ := so
        obtain ⟨e, he⟩ := ih ⟨x, hxr, hbad⟩
        refine ⟨e, ?_⟩
        simp only [validate]
        rw [hcp, he]
        rfl

/-! ## Fast path and disallow-skip lemmas -/

theorem lookup_fast_path (compile : String → Option (String → Bool))
    (randIdx : Nat → Nat) (c : Cfg) (name path title : String)
    (pattrs : List Attribute)
    (hmap : c.mapTuple name name = some pattrs)
    (hval : ((attrGet pattrs name).getD []).length > 0)
    (hd : c.mapTuple name "disallow" = none)
    (hp : c.mapTuple name "permit" = none)
    (he : c.mapTuple name "values" = none) :
    lookup compile randIdx c name path title =
      .ok ((attrGet pattrs name).getD [], .something) := by
  unfold lookup
  rw [hmap]
  unfold lookupBody hasClause
  rw [hd, hp, he]
  simp [hval]

theorem lookupStep_disallow_skip (compile : String → Option (String → Bool))
    (randIdx : Nat → Nat) (path title : String) (primaryValue : List String)
    (properties : Option (List Attribute)) (st : LookupState) (record : Record)
    (ts : List Tuple)
    (hc : record.lookupClause "disallow" = some ts)
    (hm : matchTuples compile path title ts = .ok true) :
    lookupStep compile randIdx path title primaryValue properties st record = .ok st := by
  unfold lookupStep disallowGate
  rw [hc]
  dsimp only
  rw [hm]

/-! ## Concrete fixtures for witnesses and counterexamples -/

/-- A concrete regex engine for closed instances: the pattern `(` fails to
compile (as it does under Go's `regexp`), every other pattern matches by
literal equality. -/
def compile0 : String → Option (String → Bool) :=
  fun s => if s == "(" then none else some (fun t => s == t)

/-- A concrete random draw (always the first element). -/
def randIdx0 : Nat → Nat := fun _ => 0

/-- One record `id=abc-123` with no clauses. -/
def dbSimple : Cfg := ⟨[⟨[⟨[⟨"id", "abc-123"⟩]⟩]⟩]⟩

/-- `id=x` with `properties fuzz` and `values a b`. -/
def dbFuzz : Cfg :=
  ⟨[⟨[⟨[⟨"id", "x"⟩]⟩,
      ⟨[⟨"properties", ""⟩, ⟨"fuzz", ""⟩]⟩,
      ⟨[⟨"values", ""⟩, ⟨"a", ""⟩, ⟨"b", ""⟩]⟩]⟩]⟩

/-- The empty rule database. -/
def dbEmpty : Cfg := ⟨[]⟩

/-- A GET operation with one required path parameter `id`. -/
def methodOne : Method := ⟨"", [⟨"id", "path", true⟩], ⟨false, ""⟩, ["200"]⟩

/-- A one-path API over `/a/{id}`. -/
def apiOne : API :=
  ⟨[⟨"somewhere"⟩], ⟨"T"⟩, [("/a/\x7bid\x7d", [("get", methodOne)])], []⟩

/-- A GET operation with no parameters. -/
def methodPlain : Method := ⟨"", [], ⟨false, ""⟩, ["200"]⟩

/-- A two-path API, `/a` before `/b`. -/
def apiA : API :=
  ⟨[⟨"h"⟩], ⟨"T"⟩, [("/a", [("get", methodPlain)]), ("/b", [("get", methodPlain)])], []⟩

/-- The same two-path API with its path map iterated the other way round. -/
def apiB : API :=
  ⟨[⟨"h"⟩], ⟨"T"⟩, [("/b", [("get", methodPlain)]), ("/a", [("get", methodPlain)])], []⟩

/-- A record whose disallow and permit clauses both match title `T`. -/
def recPermDis : Record :=
  ⟨[⟨[⟨"id", "v"⟩]⟩,
    ⟨[⟨"disallow", ""⟩, ⟨"title", "T"⟩]⟩,
    ⟨[⟨"permit", ""⟩, ⟨"title", "T"⟩]⟩]⟩

/-- A disallow tuple whose only comparison attribute has an unrecognised
name. -/
def tupUnrec : Tuple := ⟨[⟨"disallow", ""⟩, ⟨"foo", "x"⟩]⟩

/-- A regex disallow tuple whose first comparison fails before the
unparsable pattern `(` is reached. -/
def tupShortCircuit : Tuple :=
  ⟨[⟨"disallow", ""⟩, ⟨"regex", ""⟩, ⟨"title", "AAA"⟩, ⟨"path", "("⟩]⟩

/-- A regex disallow tuple whose first comparison carries the unparsable
pattern `(`. -/
def tupBadFirst : Tuple :=
  ⟨[⟨"disallow", ""⟩, ⟨"regex", ""⟩, ⟨"path", "("⟩]⟩

/-- A date-time-formatted string property without an enumeration. -/
def propDateTime : Property := ⟨"string", "date-time", [], ""⟩

/-- A string property with an enumeration. -/
def propEnum : Property := ⟨"string", "", ["x", "y"], ""⟩

/-- An array property. -/
def propArr : Property := ⟨"array", "", [], ""⟩

/-- An integer property. -/
def propInt : Property := ⟨"integer", "int32", [], ""⟩

/-- A property of some other type. -/
def propObj : Property := ⟨"object", "", [], ""⟩

/-- A request declaring the expected codes 200 and 404. -/
def reqTwoCodes : Request := ⟨"GET", "u", "h", [], [], [], ["200", "404"]⟩

/-- A request declaring a malformed expected code. -/
def reqBadCode : Request := ⟨"GET", "u", "h", [], [], [], ["20x"]⟩

/-- An actual 200 response. -/
def resp200 : Response := ⟨"200 OK", 200, "HTTP/1.1", 1, 1, [], "", 0, [], false, false⟩

/-- An actual 403 response. -/
def resp403 : Response := ⟨"403 Forbidden", 403, "HTTP/1.1", 1, 1, [], "", 0, [], false, false⟩

/-- The request `generate` builds for `apiOne` under `dbFuzz`: the `{id}`
token survives in the URL. -/
def reqFuzz : Request :=
  ⟨"GET", "httpssomewhere/a/\x7bid\x7d", "somewhere", [], [], [], ["200"]⟩

/-! ## Claim theorems -/

/-- C1 (counterexample): the claim says a `NeedsFuzz` (fuzzing) outcome
substitutes the first resolved value into the path, but the code leaves the
`{id}` token untouched: under `dbFuzz` the resolver yields
`(["a"], fuzzing)`, yet the generated request's URL still contains `{id}`
and not `a`. -/
theorem c1_counterexample :
    lookup compile0 randIdx0 dbFuzz "id" "/a/\x7bid\x7d" "T" = .ok (["a"], .fuzzing) ∧
    generate compile0 randIdx0 false false "https" apiOne dbFuzz = .ok ([reqFuzz], [], 1) ∧
    reqFuzz.url = "httpssomewhere/a/\x7bid\x7d" ∧
    reqFuzz.url ≠ "httpssomewhere/a/a" := by
  refine ⟨by decide, by decide, by decide, by decide⟩

/-- C1 (amended): for a required path parameter, a `something` outcome
substitutes the `{name}` token with the first resolved value; a `fuzzing`
outcome performs no substitution and processing continues; a `nothing`
outcome fails the whole run in strict mode, and in non-strict mode skips
the whole operation (remaining parameters unprocessed) while the miss
counter entry for that parameter is incremented by one and no request is
emitted for the operation. -/
theorem c1_path_parameter_policy :
    (∀ (compile : String → Option (String → Bool)) (randIdx : Nat → Nat)
        (strict : Bool) (db : Cfg) (path title : String) (p : Parameter)
        (rest : List Parameter) (fp v : String) (vs : List String),
      lookup compile randIdx db p.name path title = .ok (v :: vs, .something) →
      substPathParams compile randIdx strict db path title (p :: rest) fp =
        substPathParams compile randIdx strict db path title rest
          (replaceAllStr fp ("\x7b" ++ p.name ++ "\x7d") v)) ∧
    (∀ (compile : String → Option (String → Bool)) (randIdx : Nat → Nat)
        (strict : Bool) (db : Cfg) (path title : String) (p : Parameter)
        (rest : List Parameter) (fp : String) (vs : List String),
      lookup compile randIdx db p.name path title = .ok (vs, .fuzzing) →
      substPathParams compile randIdx strict db path title (p :: rest) fp =
        substPathParams compile randIdx strict db path title rest fp) ∧
    (∀ (compile : String → Option (String → Bool)) (randIdx : Nat → Nat)
        (db : Cfg) (path title : String) (p : Parameter)
        (rest : List Parameter) (fp : String) (vs : List String),
      lookup compile randIdx db p.name path title = .ok (vs, .nothing) →
      substPathParams compile randIdx true db path title (p :: rest) fp =
        .error (.genErr ("err: could not find path parameter →" ++ p.name))) ∧
    (∀ (compile : String → Option (String → Bool)) (randIdx : Nat → Nat)
        (db : Cfg) (path title : String) (p : Parameter)
        (rest : List Parameter) (fp : String) (vs : List String),
      lookup compile randIdx db p.name path title = .ok (vs, .nothing) →
      substPathParams compile randIdx false db path title (p :: rest) fp =
        .ok (.inr p.name)) ∧
    (∀ (compile : String → Option (String → Bool)) (randIdx : Nat → Nat)
        (strict allBodies : Bool) (proto : String) (api : API) (db : Cfg)
        (path httpMethod : String) (method : Method)
        (rest : List (String × Method)) (st : GenState) (q : String),
      buildOp compile randIdx strict allBodies proto api db path httpMethod method =
        .ok (.missed q) →
      genMethods compile randIdx strict allBodies proto api db path
          ((httpMethod, method) :: rest) st =
        genMethods compile randIdx strict allBodies proto api db path rest
          ⟨st.requests, bump st.missing q, st.totalPossible + 1⟩) :=
  ⟨substPathParams_something_eq, substPathParams_fuzzing_eq,
   substPathParams_nothing_strict_eq, substPathParams_nothing_skip_eq,
   genMethods_missed_eq⟩

/-- C1 (witness): the five cases of the amended claim at concrete inputs. -/
theorem c1_path_parameter_policy_witness :
    (lookup compile0 randIdx0 dbSimple "id" "/p" "T" = .ok (["abc-123"], .something)) ∧
    (substPathParams compile0 randIdx0 false dbSimple "/p" "T"
        [⟨"id", "path", true⟩] "x/\x7bid\x7d" =
      substPathParams compile0 randIdx0 false dbSimple "/p" "T" []
        (replaceAllStr "x/\x7bid\x7d" ("\x7b" ++ "id" ++ "\x7d") "abc-123")) ∧
    (lookup compile0 randIdx0 dbFuzz "id" "/p" "T" = .ok (["a"], .fuzzing)) ∧
    (substPathParams compile0 randIdx0 false dbFuzz "/p" "T"
        [⟨"id", "path", true⟩] "x" =
      substPathParams compile0 randIdx0 false dbFuzz "/p" "T" [] "x") ∧
    (lookup compile0 randIdx0 dbEmpty "id" "/p" "T" = .ok ([], .nothing)) ∧
    (substPathParams compile0 randIdx0 true dbEmpty "/p" "T"
        [⟨"id", "path", true⟩] "x" =
      .error (.genErr ("err: could not find path parameter →" ++ "id"))) ∧
    (substPathParams compile0 randIdx0 false dbEmpty "/p" "T"
        [⟨"id", "path", true⟩] "x" = .ok (.inr "id")) ∧
    (buildOp compile0 randIdx0 false false "https" apiOne dbEmpty
        "/a/\x7bid\x7d" "get" methodOne = .ok (.missed "id")) ∧
    (genMethods compile0 randIdx0 false false "https" apiOne dbEmpty
        "/a/\x7bid\x7d" [("get", methodOne)] ⟨[], [], 0⟩ =
      genMethods compile0 randIdx0 false false "https" apiOne dbEmpty
        "/a/\x7bid\x7d" [] ⟨[], bump [] "id", 0 + 1⟩) :=
  ⟨by decide,
   c1_path_parameter_policy.1 compile0 randIdx0 false dbSimple "/p" "T"
     ⟨"id", "path", true⟩ [] "x/\x7bid\x7d" "abc-123" [] (by decide),
   by decide,
   c1_path_parameter_policy.2.1 compile0 randIdx0 false dbFuzz "/p" "T"
     ⟨"id", "path", true⟩ [] "x" ["a"] (by decide),
   by decide,
   c1_path_parameter_policy.2.2.1 compile0 randIdx0 dbEmpty "/p" "T"
     ⟨"id", "path", true⟩ [] "x" [] (by decide),
   c1_path_parameter_policy.2.2.2.1 compile0 randIdx0 dbEmpty "/p" "T"
     ⟨"id", "path", true⟩ [] "x" [] (by decide),
   by decide,
   c1_path_parameter_policy.2.2.2.2 compile0 randIdx0 false false "https"
     apiOne dbEmpty "/a/\x7bid\x7d" "get" methodOne [] ⟨[], [], 0⟩ "id" (by decide)⟩

/-- C2: an identifier whose store entry has a non-empty primary value and
no disallow, permit or values clause anywhere resolves to
`Found([primary value])` for every context — the path and title are never
consulted. -/
theorem c2_unconstrained_identifier :
    ∀ (compile : String → Option (String → Bool)) (randIdx : Nat → Nat)
      (c : Cfg) (name : String) (pattrs : List Attribute),
      c.mapTuple name name = some pattrs →
      ((attrGet pattrs name).getD []).length > 0 →
      c.mapTuple name "disallow" = none →
      c.mapTuple name "permit" = none →
      c.mapTuple name "values" = none →
      ∀ path title : String,
        lookup compile randIdx c name path title =
          .ok ((attrGet pattrs name).getD [], .something) :=
  fun compile randIdx c name pattrs hmap hval hd hp he path title =>
    lookup_fast_path compile randIdx c name path title pattrs hmap hval hd hp he

/-- C2 (witness): the fast path at a concrete store. -/
theorem c2_unconstrained_identifier_witness :
    (dbSimple.mapTuple "id" "id" = some [⟨"id", "abc-123"⟩]) ∧
    (dbSimple.mapTuple "id" "disallow" = none) ∧
    (dbSimple.mapTuple "id" "permit" = none) ∧
    (dbSimple.mapTuple "id" "values" = none) ∧
    (lookup compile0 randIdx0 dbSimple "id" "/p" "T" =
      .ok ((attrGet [⟨"id", "abc-123"⟩] "id").getD [], .something)) ∧
    ((attrGet [⟨"id", "abc-123"⟩] "id").getD [] = ["abc-123"]) :=
  ⟨by decide, by decide, by decide, by decide,
   c2_unconstrained_identifier compile0 randIdx0 dbSimple "id" [⟨"id", "abc-123"⟩]
     (by decide) (by decide) (by decide) (by decide) (by decide) "/p" "T",
   by decide⟩

/-- C3: a record one of whose disallow tuples matches the context
contributes nothing to the resolution — the state (values and fuzz flag)
is returned unchanged, whatever its permit clause says. -/
theorem c3_disallow_overrides_permit :
    ∀ (compile : String → Option (String → Bool)) (randIdx : Nat → Nat)
      (path title : String) (primaryValue : List String)
      (properties : Option (List Attribute)) (st : LookupState)
      (record : Record) (ts : List Tuple),
      record.lookupClause "disallow" = some ts →
      matchTuples compile path title ts = .ok true →
      lookupStep compile randIdx path title primaryValue properties st record = .ok st :=
  lookupStep_disallow_skip

/-- C3 (witness): a record whose disallow and permit clauses both match —
the step leaves the state untouched. -/
theorem c3_disallow_overrides_permit_witness :
    (recPermDis.lookupClause "disallow" = some [⟨[⟨"disallow", ""⟩, ⟨"title", "T"⟩]⟩]) ∧
    (matchTuples compile0 "p" "T" [⟨[⟨"disallow", ""⟩, ⟨"title", "T"⟩]⟩] = .ok true) ∧
    (recPermDis.lookupClause "permit" = some [⟨[⟨"permit", ""⟩, ⟨"title", "T"⟩]⟩]) ∧
    (matchTuples compile0 "p" "T" [⟨[⟨"permit", ""⟩, ⟨"title", "T"⟩]⟩] = .ok true) ∧
    (lookupStep compile0 randIdx0 "p" "T" ["v"] none ⟨false, ["w"]⟩ recPermDis =
      .ok ⟨false, ["w"]⟩) :=
  ⟨by decide, by decide, by decide, by decide,
   c3_disallow_overrides_permit compile0 randIdx0 "p" "T" ["v"] none
     ⟨false, ["w"]⟩ recPermDis [⟨[⟨"disallow", ""⟩, ⟨"title", "T"⟩]⟩]
     (by decide) (by decide)⟩

/-- C4 (counterexample): the claim says a tuple whose comparison attributes
are all unrecognised matches every context; the code starts the match flag
at false, so such a tuple matches nothing: `tupUnrec` scans only the
unrecognised attribute `foo` and yields `ok false`. -/
theorem c4_counterexample :
    ((scannedAttrs tupUnrec).all
      (fun a => (testOf "somepath" "sometitle" a).isNone)) = true ∧
    matchTuple compile0 "somepath" "sometitle" tupUnrec = .ok false ∧
    ¬ matchTuple compile0 "somepath" "sometitle" tupUnrec = .ok true := by
  refine ⟨by decide, by decide, by decide⟩

/-- C4 (amended): an unrecognised attribute is skipped without affecting
the result; the first failing comparison aborts the tuple with no match; a
tuple with at least one recognised attribute and no failing comparison is a
match; and a tuple whose scanned attributes are all unrecognised matches no
context (not every context, as claimed). -/
theorem c4_tuple_match_semantics :
    (∀ (valid : String → String → Except Err Bool) (path title : String)
        (a : Attribute) (rest : List Attribute) (res : Bool),
      testOf path title a = none →
      searchAttrs valid path title (a :: rest) res =
        searchAttrs valid path title rest res) ∧
    (∀ (valid : String → String → Except Err Bool) (path title : String)
        (a : Attribute) (rest : List Attribute) (res : Bool) (t : String),
      testOf path title a = some t →
      valid a.value t = .ok false →
      searchAttrs valid path title (a :: rest) res = .ok false) ∧
    (∀ (valid : String → String → Except Err Bool) (path title : String)
        (attrs : List Attribute),
      (∀ a ∈ attrs, ∀ t, testOf path title a = some t → valid a.value t = .ok true) →
      (∃ a ∈ attrs, (testOf path title a).isSome) →
      searchAttrs valid path title attrs false = .ok true) ∧
    (∀ (compile : String → Option (String → Bool)) (path title : String)
        (t : Tuple),
      (∀ a ∈ scannedAttrs t, testOf path title a = none) →
      matchTuple compile path title t = .ok false) :=
  ⟨searchAttrs_skip,
   searchAttrs_fail,
   fun valid path title attrs h hex =>
     (searchAttrs_all_true valid path title attrs false h).1 hex,
   matchTuple_unrecognized⟩

/-- C4 (witness): the four amended cases at concrete attributes. -/
theorem c4_tuple_match_semantics_witness :
    (testOf "p" "T" ⟨"foo", "x"⟩ = none) ∧
    (searchAttrs (validOf compile0 false) "p" "T" [⟨"foo", "x"⟩] false =
      searchAttrs (validOf compile0 false) "p" "T" [] false) ∧
    (testOf "p" "T" ⟨"title", "X"⟩ = some "T") ∧
    (validOf compile0 false "X" "T" = .ok false) ∧
    (searchAttrs (validOf compile0 false) "p" "T" [⟨"title", "X"⟩] false = .ok false) ∧
    (searchAttrs (validOf compile0 false) "p" "T" [⟨"title", "T"⟩] false = .ok true) ∧
    (matchTuple compile0 "somepath" "sometitle" tupUnrec = .ok false) :=
  ⟨by decide,
   c4_tuple_match_semantics.1 (validOf compile0 false) "p" "T" ⟨"foo", "x"⟩ [] false
     (by decide),
   by decide,
   by decide,
   c4_tuple_match_semantics.2.1 (validOf compile0 false) "p" "T" ⟨"title", "X"⟩ [] false "T"
     (by decide) (by decide),
   c4_tuple_match_semantics.2.2.1 (validOf compile0 false) "p" "T" [⟨"title", "T"⟩]
     (by
       intro a ha t ht
       rw [List.mem_singleton] at ha
       subst ha
       simp [testOf] at ht
       subst ht
       decide)
     (by decide),
   c4_tuple_match_semantics.2.2.2 compile0 "somepath" "sometitle" tupUnrec (by decide)⟩

/-- C5 (counterexample): the claim says an unparsable pattern in a
regex-mode tuple is always fatal; but a failing comparison earlier in the
same tuple short-circuits the scan, so the unparsable pattern `(` in
`tupShortCircuit` is never compiled and the tuple is silently a non-match. -/
theorem c5_counterexample :
    compile0 "(" = none ∧
    tupShortCircuit.hasKey "regex" = true ∧
    (⟨"path", "("⟩ : Attribute) ∈ scannedAttrs tupShortCircuit ∧
    matchTuple compile0 "pp" "B" tupShortCircuit = .ok false :=
  ⟨rfl, by decide, by decide, by decide⟩

/-- C5 (amended): whenever a comparison of a regex-mode tuple is actually
reached — every earlier recognised attribute compiled and matched — an
unparsable pattern is fatal (the run aborts); a compile failure is never
converted into a non-match. -/
theorem c5_regex_compile_failure_fatal :
    (∀ (compile : String → Option (String → Bool)) (v t : String),
      compile v = none →
      validOf compile true v t =
        .error (.fatal ("err: could not compile regex \"" ++ v ++ "\" →"))) ∧
    (∀ (compile : String → Option (String → Bool)) (path title : String)
        (t : Tuple) (pre : List Attribute) (a : Attribute) (post : List Attribute),
      regexEngaged t = true →
      scannedAttrs t = pre ++ a :: post →
      (∀ b ∈ pre, ∀ tb, testOf path title b = some tb →
        ∃ m, compile b.value = some m ∧ m tb = true) →
      (testOf path title a).isSome →
      compile a.value = none →
      matchTuple compile path title t =
        .error (.fatal ("err: could not compile regex \"" ++ a.value ++ "\" →"))) :=
  ⟨validOf_compile_fail, matchTuple_regex_fatal⟩

/-- C5 (witness): a regex tuple whose first comparison carries the
unparsable pattern `(` makes the whole match fatal. -/
theorem c5_regex_compile_failure_fatal_witness :
    (validOf compile0 true "(" "x" =
      .error (.fatal ("err: could not compile regex \"" ++ "(" ++ "\" →"))) ∧
    (regexEngaged tupBadFirst = true) ∧
    (scannedAttrs tupBadFirst = [] ++ (⟨"path", "("⟩ : Attribute) :: []) ∧
    (matchTuple compile0 "pp" "B" tupBadFirst =
      .error (.fatal ("err: could not compile regex \"" ++ "(" ++ "\" →"))) :=
  ⟨c5_regex_compile_failure_fatal.1 compile0 "(" "x" rfl,
   by decide,
   by decide,
   c5_regex_compile_failure_fatal.2 compile0 "pp" "B" tupBadFirst []
     ⟨"path", "("⟩ []
     (by decide) (by decide)
     (by intro b hb; exact absurd hb (List.not_mem_nil b))
     (by decide) rfl⟩

/-- C6 (counterexample): the claim says a date-time-formatted string
property yields the fixed placeholder date; but the code's enum check
unconditionally overwrites the placeholder, so a date-time property with
no enumeration yields the empty quoted string instead. -/
theorem c6_counterexample :
    randProperty randIdx0 [] "n" propDateTime = [("n", "\"\"")] ∧
    lookupVal (randProperty randIdx0 [] "n" propDateTime) "n" ≠ some "00-00-0000" := by
  refine ⟨by decide, by decide⟩

/-- C6 (amended): the synthetic default of a body property is decided by
its type: a string property with a non-empty enumeration yields a member
of that enumeration; any other string property — including a
date-time-formatted one, whose placeholder is overwritten — yields the
empty quoted string; an array property yields the empty array literal; an
integer property yields zero; any other type yields the empty quoted
string. -/
theorem c6_body_default_by_type :
    (∀ (randIdx : Nat → Nat) (obj : List (String × String)) (name : String)
        (p : Property),
      p.type = "string" → p.enums ≠ [] →
      ∃ v, v ∈ p.enums ∧
        lookupVal (randProperty randIdx obj name p) name = some v) ∧
    (∀ (randIdx : Nat → Nat) (obj : List (String × String)) (name : String)
        (p : Property),
      p.type = "string" → p.enums = [] →
      lookupVal (randProperty randIdx obj name p) name = some "\"\"") ∧
    (∀ (randIdx : Nat → Nat) (obj : List (String × String)) (name : String)
        (p : Property),
      p.type = "array" →
      lookupVal (randProperty randIdx obj name p) name = some "[]") ∧
    (∀ (randIdx : Nat → Nat) (obj : List (String × String)) (name : String)
        (p : Property),
      p.type = "integer" →
      lookupVal (randProperty randIdx obj name p) name = some "0") ∧
    (∀ (randIdx : Nat → Nat) (obj : List (String × String)) (name : String)
        (p : Property),
      p.type ≠ "string" → p.type ≠ "array" → p.type ≠ "integer" →
      lookupVal (randProperty randIdx obj name p) name = some "\"\"") :=
  ⟨randProperty_string_enum, randProperty_string_noenum, randProperty_array,
   randProperty_integer, randProperty_other⟩

/-- C6 (witness): the five amended cases at concrete properties — the
date-time case goes through the string-without-enumeration branch. -/
theorem c6_body_default_by_type_witness :
    (∃ v, v ∈ propEnum.enums ∧
      lookupVal (randProperty randIdx0 [] "n" propEnum) "n" = some v) ∧
    (lookupVal (randProperty randIdx0 [] "n" propDateTime) "n" = some "\"\"") ∧
    (lookupVal (randProperty randIdx0 [] "n" propArr) "n" = some "[]") ∧
    (lookupVal (randProperty randIdx0 [] "n" propInt) "n" = some "0") ∧
    (lookupVal (randProperty randIdx0 [] "n" propObj) "n" = some "\"\"") :=
  ⟨c6_body_default_by_type.1 randIdx0 [] "n" propEnum rfl (by decide),
   c6_body_default_by_type.2.1 randIdx0 [] "n" propDateTime rfl (by decide),
   c6_body_default_by_type.2.2.1 randIdx0 [] "n" propArr rfl,
   c6_body_default_by_type.2.2.2.1 randIdx0 [] "n" propInt rfl,
   c6_body_default_by_type.2.2.2.2 randIdx0 [] "n" propObj
     (by decide) (by decide) (by decide)⟩

/-- C7: when every declared code of every pair parses, the classifier
splits each pair into one suspicious entry per declared code equal to the
actual status and one conformant entry per differing code; an unparsable
declared code anywhere makes classification return an error with no
buckets. -/
theorem c7_classifier_buckets :
    (∀ pairs : List (Request × Response),
      (∀ pr ∈ pairs, ∀ c ∈ pr.1.responses, (atoi c).isSome) →
      validate pairs =
        .ok ((pairs.map susOf).flatten, (pairs.map okOf).flatten)) ∧
    (∀ pairs : List (Request × Response),
      (∃ pr ∈ pairs, ∃ c ∈ pr.1.responses, atoi c = none) →
      ∃ e, validate pairs = .error e) :=
  ⟨validate_ok_spec, validate_err_of_bad⟩

/-- C7 (witness): the spec's scenario — declared codes 200 and 404; an
actual 200 lands in both buckets (suspicious for 200, conformant for 404),
an actual 403 lands twice in conformant; a malformed declared code errors. -/
theorem c7_classifier_buckets_witness :
    (∀ pr ∈ [(reqTwoCodes, resp200)], ∀ c ∈ pr.1.responses, (atoi c).isSome) ∧
    (validate [(reqTwoCodes, resp200)] =
      .ok ((([(reqTwoCodes, resp200)]).map susOf).flatten,
           (([(reqTwoCodes, resp200)]).map okOf).flatten)) ∧
    (validate [(reqTwoCodes, resp200)] =
      .ok ([⟨reqTwoCodes, resp200⟩], [⟨reqTwoCodes, resp200⟩])) ∧
    (validate [(reqTwoCodes, resp403)] =
      .ok ([], [⟨reqTwoCodes, resp403⟩, ⟨reqTwoCodes, resp403⟩])) ∧
    (∃ e, validate [(reqBadCode, resp200)] = .error e) :=
  ⟨by decide,
   c7_classifier_buckets.1 [(reqTwoCodes, resp200)] (by decide),
   by decide,
   by decide,
   c7_classifier_buckets.2 [(reqBadCode, resp200)] (by decide)⟩

/-- C8 (counterexample): the claim says synthesis output is in declaration
order and identical regardless of iteration order; but the code iterates
Go maps, and two iteration orders of the same path map produce different
request sequences: `apiA` and `apiB` are the same SpecTree up to path
permutation, yet generation differs. -/
theorem c8_counterexample :
    List.Perm apiA.paths apiB.paths ∧
    apiA.servers = apiB.servers ∧
    apiA.info = apiB.info ∧
    apiA.schemas = apiB.schemas ∧
    generate compile0 randIdx0 false false "https" apiA dbEmpty ≠
      generate compile0 randIdx0 false false "https" apiB dbEmpty := by
  refine ⟨by decide, by decide, by decide, by decide, by decide⟩

/-- C8 (amended): for a fixed iteration order of the path and method maps,
synthesis is a pure deterministic function of the store and spec: the
requests come out exactly as the in-order filter of the visited
(path, method) operations, and the total count is the number of visited
operations. The order is the map iteration order, which Go does not
guarantee to be declaration order nor stable across runs. -/
theorem c8_visit_order_determinism :
    ∀ (compile : String → Option (String → Bool)) (randIdx : Nat → Nat)
      (strict allBodies : Bool) (proto : String) (api : API) (db : Cfg)
      (reqs : List Request) (miss : List (String × Nat)) (total : Nat),
      generate compile randIdx strict allBodies proto api db = .ok (reqs, miss, total) →
      reqs = (visitOps api).filterMap
        (builtOf compile randIdx strict allBodies proto api db) ∧
      total = (visitOps api).length :=
  generate_ok_spec

/-- C8 (witness): the visit-order normal form at a concrete two-path API. -/
theorem c8_visit_order_determinism_witness :
    (generate compile0 randIdx0 false false "https" apiA dbEmpty =
      .ok ([⟨"GET", "httpsh/a", "h", [], [], [], ["200"]⟩,
            ⟨"GET", "httpsh/b", "h", [], [], [], ["200"]⟩], [], 2)) ∧
    ([⟨"GET", "httpsh/a", "h", [], [], [], ["200"]⟩,
      ⟨"GET", "httpsh/b", "h", [], [], [], ["200"]⟩] =
      (visitOps apiA).filterMap
        (builtOf compile0 randIdx0 false false "https" apiA dbEmpty) ∧
      2 = (visitOps apiA).length) :=
  ⟨by decide,
   c8_visit_order_determinism compile0 randIdx0 false false "https" apiA dbEmpty
     [⟨"GET", "httpsh/a", "h", [], [], [], ["200"]⟩,
      ⟨"GET", "httpsh/b", "h", [], [], [], ["200"]⟩] [] 2 (by decide)⟩

/-- C9: a `something` outcome always carries at least one value, and in
consequence the pipeline's `values[0]` accesses are in bounds: generation
can never end in an index panic, for any store and spec. -/
theorem c9_something_nonempty_no_panic :
    (∀ (compile : String → Option (String → Bool)) (randIdx : Nat → Nat)
        (c : Cfg) (name path title : String) (vs : List String),
      lookup compile randIdx c name path title = .ok (vs, .something) →
      vs ≠ []) ∧
    (∀ (compile : String → Option (String → Bool)) (randIdx : Nat → Nat)
        (strict allBodies : Bool) (proto : String) (api : API) (db : Cfg)
        (e : Err),
      generate compile randIdx strict allBodies proto api db = .error e →
      e ≠ .panicIndex) :=
  ⟨lookup_something_ne_nil,
   fun compile randIdx strict allBodies proto api db e h =>
     generate_noPanic compile randIdx strict allBodies proto api db e h⟩

/-- C9 (witness): a concrete `something` with a non-empty list, and a
concrete failing generation whose error is a strict-mode miss, not a
panic. -/
theorem c9_something_nonempty_no_panic_witness :
    (lookup compile0 randIdx0 dbSimple "id" "/p" "T" =
      .ok (["abc-123"], .something)) ∧
    (["abc-123"] ≠ ([] : List String)) ∧
    (generate compile0 randIdx0 true false "https" apiOne dbEmpty =
      .error (.genErr "err: could not find path parameter →id")) ∧
    (Err.genErr "err: could not find path parameter →id" ≠ Err.panicIndex) :=
  ⟨by decide,
   c9_something_nonempty_no_panic.1 compile0 randIdx0 dbSimple "id" "/p" "T"
     ["abc-123"] (by decide),
   by decide,
   c9_something_nonempty_no_panic.2 compile0 randIdx0 true false "https"
     apiOne dbEmpty (.genErr "err: could not find path parameter →id") (by decide)⟩

/-- C10: both output formatters read the first element of the request list
unconditionally to report the target server, so an empty request list — as
the HTTP handler passes on after a generation that built nothing — makes
the access go out of bounds (a panic), while any non-empty list succeeds. -/
theorem c10_formatters_need_request :
    (∀ (missed : List (String × Nat)) (sus ok : List Set),
      printJSON [] missed sus ok = .error .panicIndex) ∧
    (∀ (r : Request) (rest : List Request) (missed : List (String × Nat))
        (sus ok : List Set),
      ∃ out, printJSON (r :: rest) missed sus ok = .ok out) ∧
    (∀ (missed : List (String × Nat)) (sus ok : List Set),
      printADO [] missed sus ok = .error .panicIndex) ∧
    (∀ (r : Request) (rest : List Request) (missed : List (String × Nat))
        (sus ok : List Set),
      ∃ lines, printADO (r :: rest) missed sus ok = .ok lines) :=
  ⟨fun _ _ _ => rfl,
   fun _ _ _ _ _ => ⟨_, rfl⟩,
   fun _ _ _ => rfl,
   fun _ _ _ _ _ => ⟨_, rfl⟩⟩

end Generator

